import Mathlib

/-!
Snake game engine (`snake-game/src/snake/logic.js`).

A shallow embedding of the pure game-state engine: `isOppositeDirection`,
`createInitialState`, `placeFood` and `moveSnake`, and of the reducer that
drives it.

Modelling conventions.

* Coordinates and `gridSize` are JavaScript numbers holding integers; they are
  embedded as `Int`.
* `random` is a stateful procedure returning a number.  It is embedded as the
  sequence of values its successive calls return (`random i` is what the
  `i`-th call returns, counting from `0`).  A number is the rational it
  denotes; the product `random() * gridSize` is the exact product rounded to
  the nearest binary64 value, ties to even (`roundToDouble`), and `Math.floor`
  is `Int.floor`.  Overflow to `Infinity` and `NaN` are outside the model.
* The `Set` of template-string keys `x-y` is embedded as the list of pairs
  `(x, y)`: on integers the key determines the pair.
* `null` is `none`; a `TypeError` (reading `.x` of `undefined`) is `none` of
  the result of `moveSnake`.  The value `willEat`, and with it the field
  `didEat`, is `null`, `false` or `true`; conditions test it by truthiness
  (`truthy`).
* The reducer of `snake-game/src/App.jsx` calls the global `Math.random`; it is
  embedded with the random source as an explicit argument: the values that
  `Math.random` returns during that call.
-/

namespace Snake

/-- Grid size used by the application: `GRID_SIZE`. -/
def GRID_SIZE : Int := 20

/-- A grid cell `{ x, y }`. -/
structure Position where
  x : Int
  y : Int
  deriving DecidableEq, Repr

/-- The four keys of `DIRECTIONS`. -/
inductive Direction where
  | UP
  | DOWN
  | LEFT
  | RIGHT
  deriving DecidableEq, Repr

/-- The table `DIRECTIONS`: unit displacement of each direction. -/
def DIRECTIONS : Direction → Position
  | .UP => { x := 0, y := -1 }
  | .DOWN => { x := 0, y := 1 }
  | .LEFT => { x := -1, y := 0 }
  | .RIGHT => { x := 1, y := 0 }

/-- The table `OPPOSITE`. -/
def OPPOSITE : Direction → Direction
  | .UP => .DOWN
  | .DOWN => .UP
  | .LEFT => .RIGHT
  | .RIGHT => .LEFT

/-- `isOppositeDirection(current, next)`: `OPPOSITE[current] === next`. -/
def isOppositeDirection (current next : Direction) : Bool :=
  decide (OPPOSITE current = next)

/-- The values of the `result` field. -/
inductive GameResult where
  | playing
  | won
  | lost
  deriving DecidableEq, Repr

/-- The values of the `speedId` field (the ids of `SPEEDS`). -/
inductive SpeedId where
  | slow
  | normal
  | fast
  deriving DecidableEq, Repr

/-- The state object built by `createInitialState` and held by the reducer.
The field `didEat` is absent (`none`) in a state built by `createInitialState`;
the reducer's spread of a `moveSnake` result into the state sets it to the
`didEat` of that result (`null`, `false` or `true`). -/
structure GameState where
  snake : List Position
  direction : Direction
  food : Option Position
  score : Nat
  running : Bool
  gameOver : Bool
  result : GameResult
  speedId : SpeedId
  didEat : Option (Option Bool) := none
  deriving DecidableEq, Repr

/-- The object returned by `moveSnake`.  The field `didEat` holds `null`
(`none`), `false` or `true`. -/
structure MoveResult where
  snake : List Position
  food : Option Position
  didEat : Option Bool
  gameOver : Bool
  result : GameResult
  deriving DecidableEq, Repr

/-- A random source: `random i` is the value returned by the `i`-th call. -/
abbrev RandomSource := Nat → ℚ

/-- The key of a cell in the `occupied` set (the template string `x-y`). -/
def cellKey (x y : Int) : Int × Int := (x, y)

/-- The set `occupied` built by `snake.forEach`. -/
def occupiedKeys (snake : List Position) : List (Int × Int) :=
  snake.map fun segment => cellKey segment.x segment.y

/-- Rounding of a rational to the nearest integer, ties to the even one. -/
def roundHalfEven (q : ℚ) : Int :=
  let f : Int := ⌊q⌋
  let frac : ℚ := q - (f : ℚ)
  if frac < 1 / 2 then f
  else if 1 / 2 < frac then f + 1
  else if f % 2 = 0 then f
  else f + 1

/-- The spacing of binary64 numbers around `q`: `2 ^ (e - 52)` with `e` the
binary exponent of `q`, not below the least normal exponent `-1022`. -/
def doubleQuantum (q : ℚ) : ℚ :=
  (2 : ℚ) ^ (max (Int.log 2 |q|) (-1022) - 52)

/-- The binary64 value of an arithmetic result whose exact value is `q`: the
nearest multiple of the spacing, ties to even. -/
def roundToDouble (q : ℚ) : ℚ :=
  (roundHalfEven (q / doubleQuantum q) : ℚ) * doubleQuantum q

/-- The rational `q` is a binary64 value. -/
def IsDouble (q : ℚ) : Prop := roundToDouble q = q

instance (q : ℚ) : Decidable (IsDouble q) := by
  unfold IsDouble; infer_instance

/-- The expression `Math.floor(random() * gridSize)` for the value `r` returned
by `random()`. -/
def floorScaled (r : ℚ) (gridSize : Int) : Int :=
  ⌊roundToDouble (r * (gridSize : ℚ))⌋

/-- The binary64 value that the literal `0.15` denotes. -/
def double015 : ℚ := 5404319552844595 / 36028797018963968

/-- The random phase of `placeFood`: the loop `for (attempt ...)`, with
`attempts` iterations still to run and `used` calls of `random` made so far.
Returns the cell found (if any) and the number of calls of `random` made. -/
def randomPhase (occupied : List (Int × Int)) (gridSize : Int) (random : RandomSource) :
    Nat → Nat → Option Position × Nat
  | 0, used => (none, used)
  | attempts + 1, used =>
    let x : Int := floorScaled (random used) gridSize
    let y : Int := floorScaled (random (used + 1)) gridSize
    let key := cellKey x y
    if ¬ (key ∈ occupied) then
      (some { x := x, y := y }, used + 2)
    else
      randomPhase occupied gridSize random attempts (used + 2)

/-- The fallback phase of `placeFood`: the nested loops over `y` (outer) and
`x` (inner), both ascending from `0` while below `gridSize`, returning the
first cell whose key is not in `occupied`. -/
def scanPhase (occupied : List (Int × Int)) (gridSize : Int) : Option Position :=
  (List.range gridSize.toNat).findSome? fun (y : Nat) =>
    (List.range gridSize.toNat).findSome? fun (x : Nat) =>
      if ¬ (cellKey (x : Int) (y : Int) ∈ occupied) then
        some { x := (x : Int), y := (y : Int) }
      else
        none

/-- The body of `placeFood`, returning the result together with the number of
calls of `random` it made. -/
def placeFoodCounting (snake : List Position) (gridSize : Int) (random : RandomSource) :
    Option Position × Nat :=
  let maxCells := gridSize * gridSize
  if (snake.length : Int) ≥ maxCells then
    (none, 0)
  else
    let occupied := occupiedKeys snake
    let maxAttempts := maxCells * 2
    match randomPhase occupied gridSize random maxAttempts.toNat 0 with
    | (some cell, used) => (some cell, used)
    | (none, used) => (scanPhase occupied gridSize, used)

/-- `placeFood(snake, gridSize, random)`. -/
def placeFood (snake : List Position) (gridSize : Int) (random : RandomSource) :
    Option Position :=
  (placeFoodCounting snake gridSize random).1

/-- `createInitialState(gridSize, random)`. -/
def createInitialState (gridSize : Int) (random : RandomSource) : GameState :=
  let center := gridSize / 2
  let snake : List Position :=
    [{ x := center + 1, y := center },
     { x := center, y := center },
     { x := center - 1, y := center }]
  { snake := snake
    direction := .RIGHT
    food := placeFood snake gridSize random
    score := 0
    running := true
    gameOver := false
    result := .playing
    speedId := .normal }

/-- Truthiness of a value that is `null`, `false` or `true`, as tested by
`?:`, `!` and `&&`. -/
def truthy : Option Bool → Bool
  | some true => true
  | _ => false

/-- The value `willEat` of `moveSnake`:
`state.food && nextHead.x === state.food.x && nextHead.y === state.food.y`,
which is `null` when the food is `null`. -/
def willEat (food : Option Position) (nextHead : Position) : Option Bool :=
  match food with
  | none => none
  | some f => some (decide (nextHead.x = f.x) && decide (nextHead.y = f.y))

/-- `moveSnake(state, gridSize, random)`; `none` when `state.snake` is empty
(reading `head.x` throws). -/
def moveSnake (state : GameState) (gridSize : Int) (random : RandomSource) :
    Option MoveResult :=
  let vector := DIRECTIONS state.direction
  match state.snake.head? with
  | none => none
  | some head =>
    let nextHead : Position := { x := head.x + vector.x, y := head.y + vector.y }
    let hitWall : Bool :=
      decide (nextHead.x < 0) || decide (nextHead.x ≥ gridSize) ||
        decide (nextHead.y < 0) || decide (nextHead.y ≥ gridSize)
    if hitWall then
      some { snake := state.snake, food := state.food, didEat := some false,
             gameOver := true, result := .lost }
    else
      let eats := willEat state.food nextHead
      let bodyToCheck := if truthy eats then state.snake else state.snake.dropLast
      let hitSelf : Bool :=
        bodyToCheck.any fun segment =>
          decide (segment.x = nextHead.x) && decide (segment.y = nextHead.y)
      if hitSelf then
        some { snake := state.snake, food := state.food, didEat := some false,
               gameOver := true, result := .lost }
      else
        let nextSnake :=
          if truthy eats then nextHead :: state.snake
          else (nextHead :: state.snake).dropLast
        let nextFood :=
          if truthy eats then placeFood nextSnake gridSize random else state.food
        if truthy eats && nextFood.isNone then
          some { snake := nextSnake, food := none, didEat := some true,
                 gameOver := true, result := .won }
        else
          some { snake := nextSnake, food := nextFood, didEat := eats,
                 gameOver := false, result := .playing }

/-- The cell `nextHead` of `moveSnake`: the head moved by the unit vector of
the direction. -/
def nextHeadOf (head : Position) (direction : Direction) : Position :=
  { x := head.x + (DIRECTIONS direction).x, y := head.y + (DIRECTIONS direction).y }

/-- The record returned by the two losing exits of `moveSnake`. -/
def lostResult (state : GameState) : MoveResult :=
  { snake := state.snake, food := state.food, didEat := some false, gameOver := true,
    result := .lost }

/-- A cell lies inside the `gridSize` x `gridSize` grid. -/
def InGrid (gridSize : Int) (p : Position) : Prop :=
  0 ≤ p.x ∧ p.x < gridSize ∧ 0 ≤ p.y ∧ p.y < gridSize

instance (gridSize : Int) (p : Position) : Decidable (InGrid gridSize p) := by
  unfold InGrid; infer_instance

/-- Every value of the random source is a number (a binary64 value) in
`[0, 1)`. -/
def UnitRange (random : RandomSource) : Prop :=
  ∀ i, IsDouble (random i) ∧ 0 ≤ random i ∧ random i < 1

/-- Encoding of an in-grid cell as a pair of naturals. -/
def cellIndex (p : Position) : Nat × Nat := (p.x.toNat, p.y.toNat)

/-- The actions dispatched to the reducer; `OTHER` is any action whose `type`
falls to the `default` case. -/
inductive Action where
  | TICK
  | CHANGE_DIRECTION (direction : Direction)
  | TOGGLE_PAUSE
  | RESTART
  | SET_SPEED (speedId : SpeedId)
  | OTHER
  deriving DecidableEq, Repr

/-- `reducer(state, action)` of `App.jsx`, with the values of `Math.random`
as the argument `random`; `none` when `moveSnake` throws. -/
def reducer (state : GameState) (action : Action) (random : RandomSource) :
    Option GameState :=
  match action with
  | .TICK =>
    if !state.running || state.gameOver then
      some state
    else
      match moveSnake state GRID_SIZE random with
      | none => none
      | some result =>
        if result.gameOver then
          some { state with
            snake := result.snake, food := result.food, didEat := some result.didEat,
            result := result.result, running := false, gameOver := true }
        else
          some { state with
            snake := result.snake, food := result.food, didEat := some result.didEat,
            gameOver := result.gameOver, result := result.result,
            score := state.score + (if truthy result.didEat then 1 else 0) }
  | .CHANGE_DIRECTION direction =>
    if isOppositeDirection state.direction direction then
      some state
    else
      some { state with direction := direction }
  | .TOGGLE_PAUSE =>
    if state.gameOver then
      some state
    else
      some { state with running := !state.running }
  | .RESTART => some (createInitialState GRID_SIZE random)
  | .SET_SPEED speedId => some { state with speedId := speedId }
  | .OTHER => some state

/-- The states the application can be in: the state built at start by
`createInitialState(GRID_SIZE, Math.random)`, and every state the reducer
returns from such a state, `Math.random` returning values in `[0, 1)`. -/
inductive Reachable : GameState → Prop where
  | init (random : RandomSource) (hr : UnitRange random) :
      Reachable (createInitialState GRID_SIZE random)
  | step (state next : GameState) (action : Action) (random : RandomSource)
      (hr : UnitRange random) (hs : Reachable state)
      (hstep : reducer state action random = some next) : Reachable next

/-- Two cells are grid-adjacent: they differ by exactly 1 in exactly one
coordinate. -/
def Adjacent (p q : Position) : Prop :=
  (|p.x - q.x| = 1 ∧ p.y = q.y) ∨ (p.x = q.x ∧ |p.y - q.y| = 1)

instance (p q : Position) : Decidable (Adjacent p q) := by
  unfold Adjacent; infer_instance

/-- Every two consecutive segments of the snake are grid-adjacent. -/
def Contiguous (snake : List Position) : Prop :=
  List.Chain' Adjacent snake

/-- The cell `c` comes strictly before the cell `d` in row-major order
(`y` outer, `x` inner). -/
def RowMajorBefore (c d : Position) : Prop :=
  c.y < d.y ∨ (c.y = d.y ∧ c.x < d.x)

/-- The `k`-th draw of the random phase of `placeFood`, counting from `0`:
`x` from the value of call `2k`, `y` from the value of call `2k + 1`. -/
def drawAt (gridSize : Int) (random : RandomSource) (k : Nat) : Position :=
  { x := floorScaled (random (2 * k)) gridSize,
    y := floorScaled (random (2 * k + 1)) gridSize }

/-- The terminal-state invariant: a finished game is not running, and the game
is finished exactly when the result is WON or LOST. -/
def TerminalInv (s : GameState) : Prop :=
  (s.gameOver = true → s.running = false) ∧
    (s.gameOver = true ↔ (s.result = .won ∨ s.result = .lost)) ∧
    (s.result = .playing ↔ s.gameOver = false)

/-- The score invariant: unless the game is won, the score is the number of
segments the snake has gained over its initial three. -/
def ScoreInv (s : GameState) : Prop :=
  s.result ≠ .won → s.score + 3 = s.snake.length

/-- The `i`-th cell of the boustrophedon path through the 20 x 20 board: row
`i / 20`, left to right on even rows and right to left on odd rows. -/
def serpentineCell (i : Nat) : Position :=
  { x := if (i / 20) % 2 = 0 then ((i % 20 : Nat) : Int) else 19 - ((i % 20 : Nat) : Int),
    y := ((i / 20 : Nat) : Int) }

/-- A snake of 399 segments along the boustrophedon path, head first: the tail
is at `(0,0)`, the head at `(1,19)`, and `(0,19)` is the only free cell. -/
def almostFullSnake : List Position :=
  ((List.range 399).map serpentineCell).reverse

/-- The state one move before a win on the 20 x 20 board: the snake covers all
cells but `(0,19)`, the food is there, and the head at `(1,19)` moves LEFT. -/
def lastFoodState : GameState :=
  { snake := almostFullSnake, direction := .LEFT, food := some { x := 0, y := 19 },
    score := 396, running := true, gameOver := false, result := .playing,
    speedId := .normal, didEat := some (some false) }

/-- The state of the application after start with the random source constantly
`0` and the two actions CHANGE_DIRECTION UP, CHANGE_DIRECTION LEFT. -/
def doubleTurnState : GameState :=
  { createInitialState GRID_SIZE (fun _ => 0) with direction := .LEFT }

/-- A state with no food on the board: the snake `[(5,5),(4,5),(3,5)]` heading
RIGHT. -/
def noFoodState : GameState :=
  { snake := [{ x := 5, y := 5 }, { x := 4, y := 5 }, { x := 3, y := 5 }],
    direction := .RIGHT, food := none, score := 0,
    running := true, gameOver := false, result := .playing, speedId := .normal }

/-! Rounding of the product `random() * gridSize`. -/

theorem roundHalfEven_le (q : ℚ) : (roundHalfEven q : ℚ) ≤ q + 1 / 2 := by
  unfold roundHalfEven
  have h1 := Int.floor_le q
  have h2 := Int.lt_floor_add_one q
  simp only
  split_ifs with ha hb hc
  · linarith
  · push_cast; linarith
  · linarith
  · push_cast
    have : q - (⌊q⌋ : ℚ) = 1 / 2 := le_antisymm (not_lt.1 hb) (not_lt.1 ha)
    linarith

theorem roundHalfEven_nonneg (q : ℚ) (h : 0 ≤ q) : 0 ≤ roundHalfEven q := by
  unfold roundHalfEven
  have h0 : (0 : Int) ≤ ⌊q⌋ := Int.floor_nonneg.2 h
  simp only
  split_ifs <;> omega

theorem doubleQuantum_pos (q : ℚ) : 0 < doubleQuantum q := by
  unfold doubleQuantum
  positivity

theorem roundToDouble_le (q : ℚ) : roundToDouble q ≤ q + doubleQuantum q / 2 := by
  unfold roundToDouble
  have hu := doubleQuantum_pos q
  have h := roundHalfEven_le (q / doubleQuantum q)
  calc (roundHalfEven (q / doubleQuantum q) : ℚ) * doubleQuantum q
      ≤ (q / doubleQuantum q + 1 / 2) * doubleQuantum q :=
        mul_le_mul_of_nonneg_right h hu.le
    _ = q + doubleQuantum q / 2 := by
      field_simp
      ring

theorem roundToDouble_nonneg (q : ℚ) (h : 0 ≤ q) : 0 ≤ roundToDouble q := by
  unfold roundToDouble
  have hu := doubleQuantum_pos q
  have := roundHalfEven_nonneg (q / doubleQuantum q) (div_nonneg h hu.le)
  have h2 : (0 : ℚ) ≤ (roundHalfEven (q / doubleQuantum q) : ℚ) := by exact_mod_cast this
  exact mul_nonneg h2 hu.le

theorem roundToDouble_zero : roundToDouble 0 = 0 := by
  simp [roundToDouble, roundHalfEven]

/-- A double below 1 is at most `1 - 2^-53`. -/
theorem isDouble_lt_one (r : ℚ) (hd : IsDouble r) (h0 : 0 ≤ r) (h1 : r < 1) :
    r ≤ 1 - (2 : ℚ) ^ (-53 : Int) := by
  rcases h0.eq_or_lt with h0 | hpos
  · rw [← h0]; norm_num
  have habs : |r| = r := abs_of_pos hpos
  have hlog : Int.log 2 r < 0 := by
    rw [← Int.lt_zpow_iff_log_lt (by norm_num) hpos]
    simpa using h1
  by_cases hL : Int.log 2 r = -1
  · -- quantum is 2^-53
    have hq : doubleQuantum r = (2 : ℚ) ^ (-53 : Int) := by
      unfold doubleQuantum
      rw [habs, hL]
      norm_num
    unfold IsDouble roundToDouble at hd
    rw [hq] at hd
    set n := roundHalfEven (r / (2 : ℚ) ^ (-53 : Int)) with hn
    have hr : r = (n : ℚ) * (2 : ℚ) ^ (-53 : Int) := hd.symm
    have hnlt : (n : ℚ) < (2 : ℚ) ^ (53 : Nat) := by
      have : (n : ℚ) * (2 : ℚ) ^ (-53 : Int) < 1 := hr ▸ h1
      have h2 : (2 : ℚ) ^ (-53 : Int) = ((2 : ℚ) ^ (53 : Nat))⁻¹ := by norm_num
      rw [h2, ← div_eq_mul_inv, div_lt_one (by positivity)] at this
      exact this
    have hnlt' : n < 2 ^ 53 := by exact_mod_cast hnlt
    have hnle : (n : ℚ) ≤ (2 : ℚ) ^ (53 : Nat) - 1 := by
      have : n ≤ 2 ^ 53 - 1 := by omega
      exact_mod_cast this
    rw [hr]
    have h2 : (2 : ℚ) ^ (-53 : Int) = ((2 : ℚ) ^ (53 : Nat))⁻¹ := by norm_num
    rw [h2]
    have hp : (0 : ℚ) < (2 : ℚ) ^ (53 : Nat) := by positivity
    rw [← div_eq_mul_inv, div_le_iff₀ hp]
    have : (1 - ((2 : ℚ) ^ (53 : Nat))⁻¹) * (2 : ℚ) ^ (53 : Nat) = (2 : ℚ) ^ (53 : Nat) - 1 := by
      field_simp
    rw [this]
    exact hnle
  · have hL2 : Int.log 2 r < -1 := by omega
    have : r < (2 : ℚ) ^ (-1 : Int) := by
      have := (Int.lt_zpow_iff_log_lt (b := 2) (by norm_num) hpos (x := -1)).2 hL2
      simpa using this
    have h3 : (2 : ℚ) ^ (-1 : Int) ≤ 1 - (2 : ℚ) ^ (-53 : Int) := by norm_num
    linarith

theorem roundToDouble_mul_lt (r : ℚ) (gridSize : Int) (hd : IsDouble r) (h0 : 0 ≤ r)
    (h1 : r < 1) (hg : 1 ≤ gridSize) : roundToDouble (r * (gridSize : ℚ)) < (gridSize : ℚ) := by
  have hgq : (1 : ℚ) ≤ (gridSize : ℚ) := by exact_mod_cast hg
  have hr := isDouble_lt_one r hd h0 h1
  have hx : r * (gridSize : ℚ) ≤ (gridSize : ℚ) - (gridSize : ℚ) * (2 : ℚ) ^ (-53 : Int) := by
    have := mul_le_mul_of_nonneg_right hr (by linarith : (0 : ℚ) ≤ (gridSize : ℚ))
    linarith
  have hxg : r * (gridSize : ℚ) < (gridSize : ℚ) := by
    have : (0 : ℚ) < (gridSize : ℚ) * (2 : ℚ) ^ (-53 : Int) := by positivity
    linarith
  have hx0 : 0 ≤ r * (gridSize : ℚ) := mul_nonneg h0 (by linarith)
  rcases hx0.eq_or_lt with hz | hpos
  · rw [← hz, roundToDouble_zero]
    linarith
  have he : (2 : ℚ) ^ (max (Int.log 2 |r * (gridSize : ℚ)|) (-1022)) < (gridSize : ℚ) := by
    rcases le_total (Int.log 2 |r * (gridSize : ℚ)|) (-1022) with hle | hle
    · rw [max_eq_right hle]
      have : (2 : ℚ) ^ (-1022 : Int) < 1 := by
        rw [zpow_neg]
        apply inv_lt_one_of_one_lt₀
        norm_num
      linarith
    · rw [max_eq_left hle, abs_of_pos hpos]
      exact lt_of_le_of_lt (Int.zpow_log_le_self (by norm_num) hpos) hxg
  have hq : doubleQuantum (r * (gridSize : ℚ)) / 2 < (gridSize : ℚ) * (2 : ℚ) ^ (-53 : Int) := by
    unfold doubleQuantum
    rw [zpow_sub₀ (by norm_num : (2 : ℚ) ≠ 0)]
    have h53 : (2 : ℚ) ^ (-53 : Int) = 1 / ((2 : ℚ) ^ (52 : Int) * 2) := by norm_num
    rw [h53]
    have hp : (0 : ℚ) < (2 : ℚ) ^ (52 : Int) := by positivity
    rw [div_div, mul_one_div, div_lt_div_iff_of_pos_right (by positivity)]
    exact he
  have hle := roundToDouble_le (r * (gridSize : ℚ))
  calc roundToDouble (r * (gridSize : ℚ))
      ≤ r * (gridSize : ℚ) + doubleQuantum (r * (gridSize : ℚ)) / 2 := hle
    _ < r * (gridSize : ℚ) + (gridSize : ℚ) * (2 : ℚ) ^ (-53 : Int) := by
        exact add_lt_add_left hq _
    _ ≤ ((gridSize : ℚ) - (gridSize : ℚ) * (2 : ℚ) ^ (-53 : Int)) +
          (gridSize : ℚ) * (2 : ℚ) ^ (-53 : Int) := add_le_add_right hx _
    _ = (gridSize : ℚ) := sub_add_cancel _ _

theorem floorScaled_inRange (r : ℚ) (gridSize : Int) (hd : IsDouble r) (h0 : 0 ≤ r)
    (h1 : r < 1) (hg : 1 ≤ gridSize) :
    0 ≤ floorScaled r gridSize ∧ floorScaled r gridSize < gridSize := by
  unfold floorScaled
  have hgq : (0 : ℚ) ≤ (gridSize : ℚ) := by exact_mod_cast (by omega : (0 : Int) ≤ gridSize)
  constructor
  · exact Int.floor_nonneg.2 (roundToDouble_nonneg _ (mul_nonneg h0 hgq))
  · rw [Int.floor_lt]
    exact roundToDouble_mul_lt r gridSize hd h0 h1 hg

theorem roundToDouble_one : roundToDouble 1 = 1 := by
  have hq : doubleQuantum 1 = (2 : ℚ) ^ (-52 : Int) := by
    unfold doubleQuantum
    rw [abs_one, Int.log_one_right]
    norm_num
  unfold roundToDouble
  rw [hq]
  have : (1 : ℚ) / (2 : ℚ) ^ (-52 : Int) = ((4503599627370496 : Int) : ℚ) := by norm_num
  rw [this]
  unfold roundHalfEven
  simp only [Int.floor_intCast, sub_self]
  norm_num

theorem int_log_two_eq (q : ℚ) (k : Int) (hpos : 0 < q) (hlo : (2 : ℚ) ^ k ≤ q)
    (hhi : q < (2 : ℚ) ^ (k + 1)) : Int.log 2 q = k := by
  apply le_antisymm
  · have := (Int.lt_zpow_iff_log_lt (b := 2) (by norm_num) hpos (x := k + 1)).1
      (by simpa using hhi)
    omega
  · exact (Int.zpow_le_iff_le_log (b := 2) (by norm_num) hpos (x := k)).1
      (by simpa using hlo)

theorem roundToDouble_eq (q : ℚ) (k : Int) (hpos : 0 < q) (hk : -1022 ≤ k)
    (hlo : (2 : ℚ) ^ k ≤ q) (hhi : q < (2 : ℚ) ^ (k + 1)) :
    roundToDouble q = (roundHalfEven (q / (2 : ℚ) ^ (k - 52)) : ℚ) * (2 : ℚ) ^ (k - 52) := by
  have hq : doubleQuantum q = (2 : ℚ) ^ (k - 52) := by
    unfold doubleQuantum
    rw [abs_of_pos hpos, int_log_two_eq q k hpos hlo hhi, max_eq_left hk]
  unfold roundToDouble
  rw [hq]

theorem isDouble_zero : IsDouble 0 := roundToDouble_zero

theorem isDouble_half : IsDouble (1 / 2) := by
  unfold IsDouble
  rw [roundToDouble_eq (1 / 2) (-1) (by norm_num) (by norm_num) (by norm_num) (by norm_num)]
  norm_num [roundHalfEven]

theorem floorScaled_zero (gridSize : Int) : floorScaled 0 gridSize = 0 := by
  simp [floorScaled, roundToDouble_zero]

theorem floorScaled_half_two : floorScaled (1 / 2) 2 = 1 := by
  unfold floorScaled
  have : (1 / 2 : ℚ) * ((2 : Int) : ℚ) = 1 := by norm_num
  rw [this, roundToDouble_one]
  norm_num

theorem isDouble_double015 : IsDouble double015 := by
  unfold IsDouble double015
  rw [roundToDouble_eq _ (-3) (by norm_num) (by norm_num) (by norm_num) (by norm_num)]
  norm_num [roundHalfEven]

theorem floorScaled_double015 : floorScaled double015 20 = 3 := by
  unfold floorScaled double015
  rw [roundToDouble_eq _ 1 (by norm_num) (by norm_num) (by norm_num) (by norm_num)]
  norm_num [roundHalfEven]

theorem exactFloor_double015 : ⌊double015 * 20⌋ = 2 := by
  unfold double015
  norm_num

theorem unitRange_zero : UnitRange (fun _ => 0) :=
  fun _ => ⟨isDouble_zero, le_refl _, by norm_num⟩

theorem unitRange_half : UnitRange (fun _ => 1 / 2) :=
  fun _ => ⟨isDouble_half, by norm_num, by norm_num⟩

theorem unitRange_double015 : UnitRange (fun _ => double015) :=
  fun _ => ⟨isDouble_double015, by unfold double015; norm_num, by unfold double015; norm_num⟩

/-! Lemmas on `placeFood`. -/

theorem mem_occupiedKeys (snake : List Position) (x y : Int) :
    cellKey x y ∈ occupiedKeys snake ↔ ({ x := x, y := y } : Position) ∈ snake := by
  unfold occupiedKeys cellKey
  constructor
  · intro h
    obtain ⟨q, hq, hk⟩ := List.mem_map.1 h
    cases q
    simp only [Prod.mk.injEq] at hk
    obtain ⟨rfl, rfl⟩ := hk
    exact hq
  · intro h
    exact List.mem_map.2 ⟨_, h, rfl⟩

theorem randomPhase_some_free (occupied : List (Int × Int)) (gridSize : Int)
    (random : RandomSource) (attempts used : Nat) (p : Position) (k : Nat)
    (h : randomPhase occupied gridSize random attempts used = (some p, k)) :
    cellKey p.x p.y ∉ occupied := by
  induction attempts generalizing used with
  | zero => simp [randomPhase] at h
  | succ n ih =>
    simp only [randomPhase] at h
    split at h
    · rename_i hfree
      simp only [Prod.mk.injEq, Option.some.injEq] at h
      obtain ⟨rfl, -⟩ := h
      exact hfree
    · exact ih _ h

theorem randomPhase_some_inGrid (occupied : List (Int × Int)) (gridSize : Int)
    (random : RandomSource) (hr : UnitRange random) (hg : 1 ≤ gridSize)
    (attempts used : Nat) (p : Position) (k : Nat)
    (h : randomPhase occupied gridSize random attempts used = (some p, k)) :
    InGrid gridSize p := by
  induction attempts generalizing used with
  | zero => simp [randomPhase] at h
  | succ n ih =>
    simp only [randomPhase] at h
    split at h
    · simp only [Prod.mk.injEq, Option.some.injEq] at h
      obtain ⟨rfl, -⟩ := h
      have hx := floorScaled_inRange (random used) gridSize (hr _).1 (hr _).2.1 (hr _).2.2 hg
      have hy := floorScaled_inRange (random (used + 1)) gridSize (hr _).1 (hr _).2.1
        (hr _).2.2 hg
      exact ⟨hx.1, hx.2, hy.1, hy.2⟩
    · exact ih _ h

theorem scanPhase_some (occupied : List (Int × Int)) (gridSize : Int) (p : Position)
    (h : scanPhase occupied gridSize = some p) :
    cellKey p.x p.y ∉ occupied ∧ InGrid gridSize p := by
  unfold scanPhase at h
  obtain ⟨y, hy, h⟩ := List.exists_of_findSome?_eq_some h
  obtain ⟨x, hx, h⟩ := List.exists_of_findSome?_eq_some h
  rw [List.mem_range] at hx hy
  split at h
  · rename_i hfree
    simp only [Option.some.injEq] at h
    subst h
    refine ⟨hfree, ?_⟩
    unfold InGrid
    simp only
    omega
  · simp at h

theorem scanPhase_eq_none_iff (occupied : List (Int × Int)) (gridSize : Int) :
    scanPhase occupied gridSize = none ↔
      ∀ x y : Int, 0 ≤ x → x < gridSize → 0 ≤ y → y < gridSize → cellKey x y ∈ occupied := by
  unfold scanPhase
  simp only [List.findSome?_eq_none_iff, List.mem_range]
  constructor
  · intro h x y hx0 hx1 hy0 hy1
    have := h y.toNat (by omega) x.toNat (by omega)
    split at this
    · simp at this
    · rename_i hocc
      rw [Int.toNat_of_nonneg hx0, Int.toNat_of_nonneg hy0] at hocc
      exact not_not.1 hocc
  · intro h y hy x hx
    have := h x y (by omega) (by omega) (by omega) (by omega)
    simp [this]

theorem placeFood_some_cases (snake : List Position) (gridSize : Int)
    (random : RandomSource) (p : Position) (h : placeFood snake gridSize random = some p) :
    (snake.length : Int) < gridSize * gridSize ∧
      ((∃ k, randomPhase (occupiedKeys snake) gridSize random
          (gridSize * gridSize * 2).toNat 0 = (some p, k)) ∨
        scanPhase (occupiedKeys snake) gridSize = some p) := by
  unfold placeFood placeFoodCounting at h
  simp only at h
  split at h
  · simp at h
  · rename_i hlen
    refine ⟨by omega, ?_⟩
    split at h
    · rename_i cell used heq
      simp only [Option.some.injEq] at h
      subst h
      exact Or.inl ⟨used, heq⟩
    · exact Or.inr h

theorem placeFood_eq_none_iff (snake : List Position) (gridSize : Int)
    (random : RandomSource) :
    placeFood snake gridSize random = none ↔
      (gridSize * gridSize ≤ (snake.length : Int) ∨
        ((randomPhase (occupiedKeys snake) gridSize random
            (gridSize * gridSize * 2).toNat 0).1 = none ∧
          scanPhase (occupiedKeys snake) gridSize = none)) := by
  unfold placeFood placeFoodCounting
  simp only
  split
  · rename_i hlen
    simp only [true_iff]
    exact Or.inl hlen
  · rename_i hlen
    split
    · rename_i cell used heq
      simp [heq, hlen]
    · rename_i used heq
      simp [heq, hlen]

theorem placeFood_not_mem (snake : List Position) (gridSize : Int)
    (random : RandomSource) (p : Position) (h : placeFood snake gridSize random = some p) :
    p ∉ snake := by
  have hkey : cellKey p.x p.y ∉ occupiedKeys snake := by
    rcases (placeFood_some_cases snake gridSize random p h).2 with ⟨k, hk⟩ | hs
    · exact randomPhase_some_free _ _ _ _ _ _ _ hk
    · exact (scanPhase_some _ _ _ hs).1
  rwa [mem_occupiedKeys] at hkey

theorem placeFood_inGrid (snake : List Position) (gridSize : Int)
    (random : RandomSource) (hg : 1 ≤ gridSize) (hr : UnitRange random) (p : Position)
    (h : placeFood snake gridSize random = some p) : InGrid gridSize p := by
  rcases (placeFood_some_cases snake gridSize random p h).2 with ⟨k, hk⟩ | hs
  · exact randomPhase_some_inGrid _ _ _ hr hg _ _ _ _ hk
  · exact (scanPhase_some _ _ _ hs).2

theorem length_le_of_nodup_inGrid (snake : List Position) (gridSize : Int)
    (hnd : snake.Nodup) (hin : ∀ s ∈ snake, InGrid gridSize s) :
    (snake.length : Int) ≤ gridSize * gridSize := by
  have hcard : snake.toFinset.card ≤
      (Finset.range gridSize.toNat ×ˢ Finset.range gridSize.toNat).card := by
    apply Finset.card_le_card_of_injOn cellIndex
    · intro s hs
      have := hin s (List.mem_toFinset.1 hs)
      unfold InGrid at this
      simp only [cellIndex, Finset.mem_product, Finset.mem_range]
      omega
    · intro a ha b hb hab
      have h1 := hin a (List.mem_toFinset.1 ha)
      have h2 := hin b (List.mem_toFinset.1 hb)
      unfold InGrid at h1 h2
      simp only [cellIndex, Prod.mk.injEq] at hab
      cases a; cases b
      simp only [Position.mk.injEq] at *
      omega
  rw [List.toFinset_card_of_nodup hnd, Finset.card_product, Finset.card_range] at hcard
  have h0 : (0 : Int) ≤ gridSize * gridSize := mul_self_nonneg gridSize
  rcases le_or_lt 0 gridSize with hg | hg
  · have : ((gridSize.toNat * gridSize.toNat : Nat) : Int) = gridSize * gridSize := by
      rw [Nat.cast_mul, Int.toNat_of_nonneg hg]
    rw [← this]
    exact_mod_cast hcard
  · have : gridSize.toNat = 0 := by omega
    rw [this] at hcard
    simp only [Nat.mul_zero, Nat.le_zero] at hcard
    rw [hcard]
    simpa using h0

theorem le_length_of_all_occupied (snake : List Position) (gridSize : Int)
    (hg : 0 ≤ gridSize)
    (hall : ∀ x y : Int, 0 ≤ x → x < gridSize → 0 ≤ y → y < gridSize →
      ({ x := x, y := y } : Position) ∈ snake) :
    gridSize * gridSize ≤ (snake.length : Int) := by
  have hcard : (Finset.range gridSize.toNat ×ˢ Finset.range gridSize.toNat).card ≤
      snake.toFinset.card := by
    apply Finset.card_le_card_of_injOn
      (fun c : Nat × Nat => ({ x := (c.1 : Int), y := (c.2 : Int) } : Position))
    · intro c hc
      have hc1 : c.1 < gridSize.toNat ∧ c.2 < gridSize.toNat := by
        simpa [Finset.mem_product] using hc
      have := hall c.1 c.2 (by omega) (by omega) (by omega) (by omega)
      simpa using this
    · intro a _ b _ hab
      simp only [Position.mk.injEq, Nat.cast_inj] at hab
      exact Prod.ext hab.1 hab.2
  rw [Finset.card_product, Finset.card_range] at hcard
  have hle := le_trans hcard (List.toFinset_card_le snake)
  have : ((gridSize.toNat * gridSize.toNat : Nat) : Int) = gridSize * gridSize := by
    rw [Nat.cast_mul, Int.toNat_of_nonneg hg]
  rw [← this]
  exact_mod_cast hle

theorem placeFood_exists_of_free (snake : List Position) (gridSize : Int)
    (random : RandomSource) (hlen : (snake.length : Int) < gridSize * gridSize)
    (hfree : ∃ c, InGrid gridSize c ∧ c ∉ snake) :
    ∃ p, placeFood snake gridSize random = some p := by
  rcases hopt : placeFood snake gridSize random with _ | p
  · exfalso
    rw [placeFood_eq_none_iff] at hopt
    rcases hopt with h | ⟨-, hs⟩
    · omega
    · obtain ⟨c, hc, hmem⟩ := hfree
      rw [scanPhase_eq_none_iff] at hs
      have := hs c.x c.y hc.1 hc.2.1 hc.2.2.1 hc.2.2.2
      rw [mem_occupiedKeys] at this
      exact hmem this
  · exact ⟨p, rfl⟩

theorem placeFood_none_iff_length (snake : List Position) (gridSize : Int)
    (random : RandomSource) (hnd : snake.Nodup) (hin : ∀ s ∈ snake, InGrid gridSize s) :
    placeFood snake gridSize random = none ↔ (snake.length : Int) = gridSize * gridSize := by
  have hle := length_le_of_nodup_inGrid snake gridSize hnd hin
  constructor
  · intro h
    rw [placeFood_eq_none_iff] at h
    rcases h with h | ⟨hrand, hs⟩
    · exact le_antisymm hle h
    · rcases le_or_lt 0 gridSize with hg | hg
      · rw [scanPhase_eq_none_iff] at hs
        have hge := le_length_of_all_occupied snake gridSize hg
          (fun x y hx0 hx1 hy0 hy1 => (mem_occupiedKeys snake x y).1 (hs x y hx0 hx1 hy0 hy1))
        exact le_antisymm hle hge
      · exfalso
        have hnil : snake = [] := by
          cases snake with
          | nil => rfl
          | cons a t =>
            have := hin a (List.mem_cons_self a t)
            unfold InGrid at this
            omega
        subst hnil
        have hpos : 0 < gridSize * gridSize := mul_pos_of_neg_of_neg hg hg
        obtain ⟨n, hn⟩ : ∃ n, (gridSize * gridSize * 2).toNat = n + 1 :=
          ⟨(gridSize * gridSize * 2).toNat - 1, by omega⟩
        rw [hn] at hrand
        simp [randomPhase, occupiedKeys] at hrand
  · intro h
    rw [placeFood_eq_none_iff]
    exact Or.inl (le_of_eq h.symm)

/-! Claims on `placeFood`. -/

/-- C1: with `gridSize >= 1` and a random source whose values lie in `[0,1)`,
a position returned by `placeFood` has both coordinates in `[0, gridSize)` and
differs from every segment of the input snake. -/
theorem placeFood_some_inGrid_and_free (snake : List Position) (gridSize : Int)
    (random : RandomSource) (hg : 1 ≤ gridSize) (hr : UnitRange random) (p : Position)
    (h : placeFood snake gridSize random = some p) :
    (0 ≤ p.x ∧ p.x < gridSize ∧ 0 ≤ p.y ∧ p.y < gridSize) ∧ ∀ s ∈ snake, s ≠ p := by
  refine ⟨placeFood_inGrid snake gridSize random hg hr p h, ?_⟩
  intro s hs hsp
  exact placeFood_not_mem snake gridSize random p h (hsp ▸ hs)

theorem placeFood_some_inGrid_and_free_witness :
    placeFood [{ x := 0, y := 0 }] 2 (fun _ => 1 / 2) = some { x := 1, y := 1 } ∧
      (((0 : Int) ≤ 1 ∧ (1 : Int) < 2 ∧ (0 : Int) ≤ 1 ∧ (1 : Int) < 2) ∧
        ∀ s ∈ [({ x := 0, y := 0 } : Position)], s ≠ { x := 1, y := 1 }) :=
  have hrun : placeFood [{ x := 0, y := 0 }] 2 (fun _ => 1 / 2) = some { x := 1, y := 1 } := by
    norm_num [placeFood, placeFoodCounting, randomPhase, occupiedKeys, cellKey,
      floorScaled_half_two]
  ⟨hrun, placeFood_some_inGrid_and_free [{ x := 0, y := 0 }] 2 (fun _ => 1 / 2)
    (by decide) unitRange_half { x := 1, y := 1 } hrun⟩

/-- C2 as stated fails: with `gridSize = 1` and the one-segment snake `[(1,0)]`
the cell `(0,0)` is free, yet `placeFood` returns absent, because the length
guard `snake.length >= gridSize * gridSize` fires. -/
theorem placeFood_absent_despite_free_cell :
    ¬ ∀ (snake : List Position) (gridSize : Int) (random : RandomSource),
        1 ≤ gridSize → (∃ c, InGrid gridSize c ∧ c ∉ snake) →
          ∃ p, placeFood snake gridSize random = some p := by
  intro hall
  obtain ⟨p, hp⟩ := hall [{ x := 1, y := 0 }] 1 (fun _ => 0) (by decide)
    ⟨{ x := 0, y := 0 }, by decide⟩
  simp [placeFood, placeFoodCounting] at hp

/-- C2 (amended): for `gridSize >= 1`, any random source and any snake with
`snake.length < gridSize^2`, if some cell of the grid is not occupied by the
snake then `placeFood` returns a position. -/
theorem placeFood_some_of_free_cell (snake : List Position) (gridSize : Int)
    (random : RandomSource) (hg : 1 ≤ gridSize)
    (hlen : (snake.length : Int) < gridSize * gridSize)
    (hfree : ∃ c, InGrid gridSize c ∧ c ∉ snake) :
    ∃ p, placeFood snake gridSize random = some p :=
  have _ := hg
  placeFood_exists_of_free snake gridSize random hlen hfree

theorem placeFood_some_of_free_cell_witness :
    ∃ p, placeFood [{ x := 0, y := 0 }] 2 (fun _ => 0) = some p :=
  placeFood_some_of_free_cell [{ x := 0, y := 0 }] 2 (fun _ => 0) (by decide) (by decide)
    ⟨{ x := 1, y := 0 }, by decide⟩

/-- C3: for a snake with pairwise-distinct segments all inside the grid, and
any random source, `placeFood` returns absent exactly when
`snake.length = gridSize^2`. -/
theorem placeFood_eq_none_iff_full (snake : List Position) (gridSize : Int)
    (random : RandomSource) (hnd : snake.Nodup) (hin : ∀ s ∈ snake, InGrid gridSize s) :
    placeFood snake gridSize random = none ↔ (snake.length : Int) = gridSize * gridSize :=
  placeFood_none_iff_length snake gridSize random hnd hin

theorem placeFood_eq_none_iff_full_witness :
    placeFood [{ x := 0, y := 0 }] 1 (fun _ => 0) = none ↔
      (([({ x := 0, y := 0 } : Position)].length : Int) = 1 * 1) :=
  placeFood_eq_none_iff_full [{ x := 0, y := 0 }] 1 (fun _ => 0) (by simp) (by decide)

/-! Lemmas on `moveSnake`. -/

theorem willEat_eq_some_true_iff (food : Option Position) (nextHead : Position) :
    willEat food nextHead = some true ↔ food = some nextHead := by
  cases food with
  | none => simp [willEat]
  | some f =>
    cases f; cases nextHead
    simp only [willEat, Option.some.injEq, Bool.and_eq_true, decide_eq_true_eq,
      Position.mk.injEq]
    constructor
    · rintro ⟨h1, h2⟩; exact ⟨h1.symm, h2.symm⟩
    · rintro ⟨h1, h2⟩; exact ⟨h1.symm, h2.symm⟩

theorem truthy_eq_true_iff (v : Option Bool) : truthy v = true ↔ v = some true := by
  cases v with
  | none => simp [truthy]
  | some b => cases b <;> simp [truthy]

/-- When the food is not at `nextHead`, `willEat` is `null` for an absent food
and `false` for a present one. -/
theorem willEat_of_ne (food : Option Position) (nextHead : Position)
    (h : food ≠ some nextHead) :
    willEat food nextHead = food.map (fun _ => false) := by
  cases food with
  | none => rfl
  | some f =>
    have hne : willEat (some f) nextHead ≠ some true :=
      fun he => h ((willEat_eq_some_true_iff _ _).1 he)
    simp only [willEat, Option.map_some', Option.some.injEq] at hne ⊢
    cases hb : (decide (nextHead.x = f.x) && decide (nextHead.y = f.y)) with
    | false => rfl
    | true => exact absurd (congrArg some hb) hne

theorem hits_eq_true_iff (body : List Position) (nextHead : Position) :
    (body.any fun segment =>
      decide (segment.x = nextHead.x) && decide (segment.y = nextHead.y)) = true ↔
      nextHead ∈ body := by
  simp only [List.any_eq_true, Bool.and_eq_true, decide_eq_true_eq]
  constructor
  · rintro ⟨s, hs, hx, hy⟩
    cases s; cases nextHead
    simp only at hx hy
    subst hx; subst hy
    exact hs
  · intro h
    exact ⟨nextHead, h, rfl, rfl⟩

theorem hitWall_eq_false_iff (gridSize : Int) (p : Position) :
    (decide (p.x < 0) || decide (p.x ≥ gridSize) ||
      decide (p.y < 0) || decide (p.y ≥ gridSize)) = false ↔ InGrid gridSize p := by
  unfold InGrid
  simp only [Bool.or_eq_false_iff, decide_eq_false_iff_not]
  omega

/-- Case analysis of `moveSnake` on a non-empty snake, exit by exit. -/
theorem moveSnake_cases (state : GameState) (gridSize : Int) (random : RandomSource)
    (head : Position) (hhead : state.snake.head? = some head) :
    moveSnake state gridSize random = some
      (if ¬ InGrid gridSize (nextHeadOf head state.direction) then lostResult state
       else if state.food = some (nextHeadOf head state.direction) then
         if nextHeadOf head state.direction ∈ state.snake then lostResult state
         else
           match placeFood (nextHeadOf head state.direction :: state.snake) gridSize random with
           | none =>
             { snake := nextHeadOf head state.direction :: state.snake, food := none,
               didEat := some true, gameOver := true, result := .won }
           | some f =>
             { snake := nextHeadOf head state.direction :: state.snake, food := some f,
               didEat := some true, gameOver := false, result := .playing }
       else if nextHeadOf head state.direction ∈ state.snake.dropLast then lostResult state
       else
         { snake := (nextHeadOf head state.direction :: state.snake).dropLast,
           food := state.food, didEat := state.food.map (fun _ => false),
           gameOver := false, result := .playing }) := by
  unfold moveSnake nextHeadOf
  simp only [hhead]
  generalize head.x + (DIRECTIONS state.direction).x = nx
  generalize head.y + (DIRECTIONS state.direction).y = ny
  have hwall := hitWall_eq_false_iff gridSize { x := nx, y := ny }
  have hhit := fun body => hits_eq_true_iff body { x := nx, y := ny }
  simp only at hwall hhit
  by_cases hin : InGrid gridSize { x := nx, y := ny }
  · rw [if_neg (by rw [Bool.not_eq_true]; exact hwall.2 hin), if_neg (not_not.2 hin)]
    by_cases heat : state.food = some { x := nx, y := ny }
    · have he := (willEat_eq_some_true_iff _ _).2 heat
      simp only [he, truthy, if_true, Bool.true_and]
      rw [if_pos heat]
      by_cases hmem : ({ x := nx, y := ny } : Position) ∈ state.snake
      · rw [if_pos ((hhit _).2 hmem), if_pos hmem]
        rfl
      · rw [if_neg (fun h => hmem ((hhit _).1 h)), if_neg hmem]
        cases hpf : placeFood ({ x := nx, y := ny } :: state.snake) gridSize random <;> simp
    · have he : truthy (willEat state.food { x := nx, y := ny }) = false := by
        rw [← Bool.not_eq_true, truthy_eq_true_iff, willEat_eq_some_true_iff]
        exact heat
      simp only [he, if_false, Bool.false_and, Bool.false_eq_true]
      rw [if_neg heat]
      by_cases hmem : ({ x := nx, y := ny } : Position) ∈ state.snake.dropLast
      · rw [if_pos ((hhit _).2 hmem), if_pos hmem]
        rfl
      · rw [if_neg (fun h => hmem ((hhit _).1 h)), if_neg hmem, willEat_of_ne _ _ heat]
  · rw [if_pos (by rw [← Bool.not_eq_false]; exact fun h => hin (hwall.1 h)), if_pos hin]
    rfl

/-! Claims on `moveSnake`. -/

/-- C4: wall collision. When the snake is non-empty and the cell
`head + vector(direction)` has a coordinate outside `[0, gridSize)`, `moveSnake`
returns result LOST with `gameOver = true`, `didEat = false`, and the snake
and food of the input state. -/
theorem moveSnake_wall_collision (state : GameState) (gridSize : Int)
    (random : RandomSource) (head : Position) (hhead : state.snake.head? = some head)
    (hout : ¬ InGrid gridSize (nextHeadOf head state.direction)) :
    moveSnake state gridSize random =
      some { snake := state.snake, food := state.food, didEat := some false,
             gameOver := true, result := .lost } := by
  rw [moveSnake_cases state gridSize random head hhead, if_pos hout]
  rfl

theorem moveSnake_wall_collision_witness :
    moveSnake
        { snake := [{ x := 0, y := 5 }, { x := 1, y := 5 }, { x := 2, y := 5 }],
          direction := .LEFT, food := some { x := 7, y := 7 }, score := 0,
          running := true, gameOver := false, result := .playing, speedId := .normal }
        20 (fun _ => 0) =
      some { snake := [{ x := 0, y := 5 }, { x := 1, y := 5 }, { x := 2, y := 5 }],
             food := some { x := 7, y := 7 }, didEat := some false,
             gameOver := true, result := .lost } :=
  moveSnake_wall_collision
    { snake := [{ x := 0, y := 5 }, { x := 1, y := 5 }, { x := 2, y := 5 }],
      direction := .LEFT, food := some { x := 7, y := 7 }, score := 0,
      running := true, gameOver := false, result := .playing, speedId := .normal }
    20 (fun _ => 0) { x := 0, y := 5 } rfl (by decide)

/-- C5: tail-vacate rule. When the in-bounds destination cell
`head + vector(direction)` is the current tail and no other segment, then
(a) if the food is absent or not at the destination, `moveSnake` reports no
collision: result PLAYING, `gameOver = false`, and the new snake is the
destination followed by the old snake without its tail (the food is kept, and
`didEat` is `false` for a present food, `null` for an absent one); (b) if the
food is at the destination, `moveSnake` reports self-collision: result LOST,
`gameOver = true`, `didEat = false`, snake and food unchanged. -/
theorem moveSnake_tail_vacate (state : GameState) (gridSize : Int)
    (random : RandomSource) (head : Position) (hhead : state.snake.head? = some head)
    (hin : InGrid gridSize (nextHeadOf head state.direction))
    (htail : state.snake.getLast? = some (nextHeadOf head state.direction))
    (hbody : nextHeadOf head state.direction ∉ state.snake.dropLast) :
    (state.food ≠ some (nextHeadOf head state.direction) →
      moveSnake state gridSize random =
        some { snake := nextHeadOf head state.direction :: state.snake.dropLast,
               food := state.food, didEat := state.food.map (fun _ => false),
               gameOver := false, result := .playing }) ∧
    (state.food = some (nextHeadOf head state.direction) →
      moveSnake state gridSize random =
        some { snake := state.snake, food := state.food, didEat := some false,
               gameOver := true, result := .lost }) := by
  have hne : state.snake ≠ [] := by
    intro h
    rw [h] at hhead
    simp at hhead
  constructor
  · intro hfood
    rw [moveSnake_cases state gridSize random head hhead, if_neg (not_not.2 hin),
      if_neg hfood, if_neg hbody, List.dropLast_cons_of_ne_nil hne]
  · intro hfood
    have hmem : nextHeadOf head state.direction ∈ state.snake :=
      List.mem_of_getLast?_eq_some htail
    rw [moveSnake_cases state gridSize random head hhead, if_neg (not_not.2 hin),
      if_pos hfood, if_pos hmem]
    rfl

theorem moveSnake_tail_vacate_witness :
    moveSnake
        { snake := [{ x := 5, y := 5 }, { x := 5, y := 4 }, { x := 4, y := 4 },
                    { x := 4, y := 5 }],
          direction := .LEFT, food := none, score := 1,
          running := true, gameOver := false, result := .playing, speedId := .normal }
        20 (fun _ => 0) =
      some { snake := [{ x := 4, y := 5 }, { x := 5, y := 5 }, { x := 5, y := 4 },
                       { x := 4, y := 4 }],
             food := none, didEat := none, gameOver := false, result := .playing } ∧
    moveSnake
        { snake := [{ x := 5, y := 5 }, { x := 5, y := 4 }, { x := 4, y := 4 },
                    { x := 4, y := 5 }],
          direction := .LEFT, food := some { x := 4, y := 5 }, score := 1,
          running := true, gameOver := false, result := .playing, speedId := .normal }
        20 (fun _ => 0) =
      some { snake := [{ x := 5, y := 5 }, { x := 5, y := 4 }, { x := 4, y := 4 },
                       { x := 4, y := 5 }],
             food := some { x := 4, y := 5 }, didEat := some false, gameOver := true,
             result := .lost } :=
  ⟨(moveSnake_tail_vacate
      { snake := [{ x := 5, y := 5 }, { x := 5, y := 4 }, { x := 4, y := 4 },
                  { x := 4, y := 5 }],
        direction := .LEFT, food := none, score := 1,
        running := true, gameOver := false, result := .playing, speedId := .normal }
      20 (fun _ => 0) { x := 5, y := 5 } rfl (by decide) (by decide) (by decide)).1
      (by decide),
   (moveSnake_tail_vacate
      { snake := [{ x := 5, y := 5 }, { x := 5, y := 4 }, { x := 4, y := 4 },
                  { x := 4, y := 5 }],
        direction := .LEFT, food := some { x := 4, y := 5 }, score := 1,
        running := true, gameOver := false, result := .playing, speedId := .normal }
      20 (fun _ => 0) { x := 5, y := 5 } rfl (by decide) (by decide) (by decide)).2
      (by decide)⟩

/-- C6: growth move. When `nextHead = head + vector(direction)` is inside the
grid, equals the food position and equals no segment of the current snake,
`moveSnake` returns `didEat = true` and the snake `nextHead` prepended to the
whole old snake (length + 1); and a returned food that is present is not a
segment of the returned snake. -/
theorem moveSnake_growth (state : GameState) (gridSize : Int)
    (random : RandomSource) (head : Position) (hhead : state.snake.head? = some head)
    (hin : InGrid gridSize (nextHeadOf head state.direction))
    (hfood : state.food = some (nextHeadOf head state.direction))
    (hfree : nextHeadOf head state.direction ∉ state.snake) :
    ∃ r, moveSnake state gridSize random = some r ∧ r.didEat = some true ∧
      r.snake = nextHeadOf head state.direction :: state.snake ∧
      r.snake.length = state.snake.length + 1 ∧
      ∀ f, r.food = some f → f ∉ r.snake := by
  rw [moveSnake_cases state gridSize random head hhead, if_neg (not_not.2 hin),
    if_pos hfood, if_neg hfree]
  cases hpf : placeFood (nextHeadOf head state.direction :: state.snake) gridSize random with
  | none =>
    refine ⟨_, rfl, rfl, rfl, by simp, ?_⟩
    intro f hf
    simp at hf
  | some c =>
    refine ⟨_, rfl, rfl, rfl, by simp, ?_⟩
    intro f hf
    simp only [Option.some.injEq] at hf
    subst hf
    exact placeFood_not_mem _ _ _ _ hpf

theorem moveSnake_growth_witness :
    ∃ r, moveSnake
        { snake := [{ x := 5, y := 5 }, { x := 4, y := 5 }, { x := 3, y := 5 }],
          direction := .RIGHT, food := some { x := 6, y := 5 }, score := 0,
          running := true, gameOver := false, result := .playing, speedId := .normal }
        20 (fun _ => 0) = some r ∧ r.didEat = some true ∧
      r.snake = [{ x := 6, y := 5 }, { x := 5, y := 5 }, { x := 4, y := 5 },
                 { x := 3, y := 5 }] ∧
      r.snake.length = 3 + 1 ∧
      ∀ f, r.food = some f → f ∉ r.snake :=
  moveSnake_growth
    { snake := [{ x := 5, y := 5 }, { x := 4, y := 5 }, { x := 3, y := 5 }],
      direction := .RIGHT, food := some { x := 6, y := 5 }, score := 0,
      running := true, gameOver := false, result := .playing, speedId := .normal }
    20 (fun _ => 0) { x := 5, y := 5 } rfl (by decide) (by decide) (by decide)

/-- C7 as stated fails when the food is absent: for the snake
`[(5,5),(4,5),(3,5)]` moving RIGHT with food `null` all hypotheses hold and the
move is a plain one, but the returned `didEat` is `null`, not `false`. -/
theorem moveSnake_no_growth_didEat_null :
    ¬ ∀ (state : GameState) (gridSize : Int) (random : RandomSource) (head : Position),
        state.snake.head? = some head →
        InGrid gridSize (nextHeadOf head state.direction) →
        state.food ≠ some (nextHeadOf head state.direction) →
        nextHeadOf head state.direction ∉ state.snake.dropLast →
        moveSnake state gridSize random =
          some { snake := nextHeadOf head state.direction :: state.snake.dropLast,
                 food := state.food, didEat := some false, gameOver := false,
                 result := .playing } := by
  intro hall
  have h := hall noFoodState 20 (fun _ => 0) { x := 5, y := 5 } rfl (by decide)
    (by decide) (by decide)
  rw [moveSnake_cases noFoodState 20 (fun _ => 0) { x := 5, y := 5 } rfl,
    if_neg (by decide), if_neg (by decide), if_neg (by decide)] at h
  simp [noFoodState] at h

/-- C7 (amended): non-growth move. When `nextHead = head + vector(direction)`
is inside the grid, is not the food position, and equals no segment of the
snake other than possibly the last, `moveSnake` returns result PLAYING,
`gameOver = false`, a falsy `didEat` (`false` when the food is present, `null`
when it is absent), the input food, and the snake `nextHead` followed by the
old snake with its last segment removed (same length). -/
theorem moveSnake_no_growth (state : GameState) (gridSize : Int)
    (random : RandomSource) (head : Position) (hhead : state.snake.head? = some head)
    (hin : InGrid gridSize (nextHeadOf head state.direction))
    (hfood : state.food ≠ some (nextHeadOf head state.direction))
    (hbody : nextHeadOf head state.direction ∉ state.snake.dropLast) :
    moveSnake state gridSize random =
        some { snake := nextHeadOf head state.direction :: state.snake.dropLast,
               food := state.food, didEat := state.food.map (fun _ => false),
               gameOver := false, result := .playing } ∧
      truthy (state.food.map (fun _ => false)) = false ∧
      (nextHeadOf head state.direction :: state.snake.dropLast).length =
        state.snake.length := by
  have hne : state.snake ≠ [] := by
    intro h
    rw [h] at hhead
    simp at hhead
  refine ⟨?_, ?_, ?_⟩
  · rw [moveSnake_cases state gridSize random head hhead, if_neg (not_not.2 hin),
      if_neg hfood, if_neg hbody, List.dropLast_cons_of_ne_nil hne]
  · cases state.food <;> rfl
  · have := List.length_pos.2 hne
    simp only [List.length_cons, List.length_dropLast]
    omega

theorem moveSnake_no_growth_witness :
    (moveSnake
        { snake := [{ x := 5, y := 5 }, { x := 4, y := 5 }, { x := 3, y := 5 }],
          direction := .RIGHT, food := some { x := 9, y := 9 }, score := 0,
          running := true, gameOver := false, result := .playing, speedId := .normal }
        20 (fun _ => 0) =
        some { snake := [{ x := 6, y := 5 }, { x := 5, y := 5 }, { x := 4, y := 5 }],
               food := some { x := 9, y := 9 }, didEat := some false, gameOver := false,
               result := .playing } ∧
      truthy (some false) = false ∧
      [({ x := 6, y := 5 } : Position), { x := 5, y := 5 }, { x := 4, y := 5 }].length = 3) ∧
    (moveSnake
        { snake := [{ x := 5, y := 5 }, { x := 4, y := 5 }, { x := 3, y := 5 }],
          direction := .RIGHT, food := none, score := 0,
          running := true, gameOver := false, result := .playing, speedId := .normal }
        20 (fun _ => 0) =
        some { snake := [{ x := 6, y := 5 }, { x := 5, y := 5 }, { x := 4, y := 5 }],
               food := none, didEat := none, gameOver := false,
               result := .playing } ∧
      truthy none = false ∧
      [({ x := 6, y := 5 } : Position), { x := 5, y := 5 }, { x := 4, y := 5 }].length = 3) :=
  ⟨moveSnake_no_growth
    { snake := [{ x := 5, y := 5 }, { x := 4, y := 5 }, { x := 3, y := 5 }],
      direction := .RIGHT, food := some { x := 9, y := 9 }, score := 0,
      running := true, gameOver := false, result := .playing, speedId := .normal }
    20 (fun _ => 0) { x := 5, y := 5 } rfl (by decide) (by decide) (by decide),
   moveSnake_no_growth
    { snake := [{ x := 5, y := 5 }, { x := 4, y := 5 }, { x := 3, y := 5 }],
      direction := .RIGHT, food := none, score := 0,
      running := true, gameOver := false, result := .playing, speedId := .normal }
    20 (fun _ => 0) { x := 5, y := 5 } rfl (by decide) (by decide) (by decide)⟩

/-! Claims on `createInitialState` and `isOppositeDirection`. -/

/-- C8 as stated fails: for `gridSize = 2` the initial snake is
`[(2,1),(1,1),(0,1)]`, whose head lies outside the 2 x 2 grid. -/
theorem createInitialState_small_grid_escapes :
    ¬ ∀ (gridSize : Int) (random : RandomSource), 1 ≤ gridSize → UnitRange random →
        (createInitialState gridSize random).snake.length = 3 ∧
        (∀ s ∈ (createInitialState gridSize random).snake, InGrid gridSize s) ∧
        (createInitialState gridSize random).direction = .RIGHT ∧
        (createInitialState gridSize random).score = 0 ∧
        (createInitialState gridSize random).running = true ∧
        (createInitialState gridSize random).gameOver = false ∧
        (createInitialState gridSize random).result = .playing ∧
        ∃ f, (createInitialState gridSize random).food = some f ∧ InGrid gridSize f ∧
          f ∉ (createInitialState gridSize random).snake := by
  intro hall
  have h := (hall 2 (fun _ => 0) (by decide) unitRange_zero).2.1
    { x := 2, y := 1 } (by simp [createInitialState])
  exact absurd h (by decide)

/-- C8 (amended): for every `gridSize >= 3` and every random source with values
in `[0,1)`, `createInitialState` yields a snake of exactly 3 segments all inside
the grid, direction RIGHT, score 0, `running = true`, `gameOver = false`, result
PLAYING, and a food cell that is present, inside the grid and not on the
snake. -/
theorem createInitialState_valid (gridSize : Int) (random : RandomSource)
    (hg : 3 ≤ gridSize) (hr : UnitRange random) :
    (createInitialState gridSize random).snake.length = 3 ∧
    (∀ s ∈ (createInitialState gridSize random).snake, InGrid gridSize s) ∧
    (createInitialState gridSize random).direction = .RIGHT ∧
    (createInitialState gridSize random).score = 0 ∧
    (createInitialState gridSize random).running = true ∧
    (createInitialState gridSize random).gameOver = false ∧
    (createInitialState gridSize random).result = .playing ∧
    ∃ f, (createInitialState gridSize random).food = some f ∧ InGrid gridSize f ∧
      f ∉ (createInitialState gridSize random).snake := by
  refine ⟨rfl, ?_, rfl, rfl, rfl, rfl, rfl, ?_⟩
  · intro s hs
    simp only [createInitialState, List.mem_cons, List.mem_singleton, List.not_mem_nil,
      or_false] at hs
    unfold InGrid
    rcases hs with rfl | rfl | rfl <;> simp only <;> omega
  · have hlen : (([{ x := gridSize / 2 + 1, y := gridSize / 2 },
        { x := gridSize / 2, y := gridSize / 2 },
        { x := gridSize / 2 - 1, y := gridSize / 2 }] : List Position).length : Int) <
        gridSize * gridSize := by
      simp only [List.length_cons, List.length_nil]
      norm_num
      nlinarith
    have hfree : ∃ c, InGrid gridSize c ∧
        c ∉ ([{ x := gridSize / 2 + 1, y := gridSize / 2 },
          { x := gridSize / 2, y := gridSize / 2 },
          { x := gridSize / 2 - 1, y := gridSize / 2 }] : List Position) := by
      refine ⟨{ x := 0, y := 0 }, ⟨le_refl _, by simp only; omega, le_refl _,
        by simp only; omega⟩, ?_⟩
      simp only [List.mem_cons, List.mem_singleton, List.not_mem_nil, or_false,
        Position.mk.injEq]
      omega
    obtain ⟨f, hf⟩ := placeFood_exists_of_free _ gridSize random hlen hfree
    refine ⟨f, hf, placeFood_inGrid _ gridSize random (by omega) hr f hf, ?_⟩
    exact placeFood_not_mem _ gridSize random f hf

theorem createInitialState_valid_witness :
    (createInitialState 3 (fun _ => 0)).snake.length = 3 ∧
    (∀ s ∈ (createInitialState 3 (fun _ => 0)).snake, InGrid 3 s) ∧
    (createInitialState 3 (fun _ => 0)).direction = .RIGHT ∧
    (createInitialState 3 (fun _ => 0)).score = 0 ∧
    (createInitialState 3 (fun _ => 0)).running = true ∧
    (createInitialState 3 (fun _ => 0)).gameOver = false ∧
    (createInitialState 3 (fun _ => 0)).result = .playing ∧
    ∃ f, (createInitialState 3 (fun _ => 0)).food = some f ∧ InGrid 3 f ∧
      f ∉ (createInitialState 3 (fun _ => 0)).snake :=
  createInitialState_valid 3 (fun _ => 0) (by decide) unitRange_zero

/-- C9: over the 16 ordered pairs of directions, `isOppositeDirection` is true
exactly for (UP,DOWN), (DOWN,UP), (LEFT,RIGHT), (RIGHT,LEFT) and false for the
other 12 pairs, including every pair `(d, d)`. -/
theorem isOppositeDirection_table :
    (∀ current next : Direction,
      isOppositeDirection current next = true ↔
        (current = .UP ∧ next = .DOWN) ∨ (current = .DOWN ∧ next = .UP) ∨
        (current = .LEFT ∧ next = .RIGHT) ∨ (current = .RIGHT ∧ next = .LEFT)) ∧
    (∀ current next : Direction,
      isOppositeDirection current next = false ↔
        ¬ ((current = .UP ∧ next = .DOWN) ∨ (current = .DOWN ∧ next = .UP) ∨
          (current = .LEFT ∧ next = .RIGHT) ∨ (current = .RIGHT ∧ next = .LEFT))) ∧
    (∀ d : Direction, isOppositeDirection d d = false) := by
  refine ⟨?_, ?_, ?_⟩
  · intro current next
    cases current <;> cases next <;> decide
  · intro current next
    cases current <;> cases next <;> decide
  · intro d
    cases d <;> decide

/-- C10: for a non-empty snake with pairwise-distinct segments all inside the
grid, `moveSnake` returns a result, and its result is WON exactly when the move
eats (`nextHead` is in bounds, equals the food and hits no segment) and the
grown snake fills the board (`snake.length + 1 = gridSize^2`); in that case
`gameOver = true`, `didEat = true` and the food is absent. -/
theorem moveSnake_won_iff (state : GameState) (gridSize : Int)
    (random : RandomSource) (head : Position) (hhead : state.snake.head? = some head)
    (hnd : state.snake.Nodup) (hin : ∀ s ∈ state.snake, InGrid gridSize s) :
    ∃ r, moveSnake state gridSize random = some r ∧
      (r.result = .won ↔
        (InGrid gridSize (nextHeadOf head state.direction) ∧
          state.food = some (nextHeadOf head state.direction) ∧
          nextHeadOf head state.direction ∉ state.snake ∧
          (state.snake.length : Int) + 1 = gridSize * gridSize)) ∧
      (r.result = .won → r.gameOver = true ∧ r.didEat = some true ∧ r.food = none) := by
  rw [moveSnake_cases state gridSize random head hhead]
  refine ⟨_, rfl, ?_⟩
  by_cases hgrid : InGrid gridSize (nextHeadOf head state.direction)
  · rw [if_neg (not_not.2 hgrid)]
    by_cases heat : state.food = some (nextHeadOf head state.direction)
    · rw [if_pos heat]
      by_cases hmem : nextHeadOf head state.direction ∈ state.snake
      · rw [if_pos hmem]
        simp [lostResult, hmem]
      · rw [if_neg hmem]
        have hfull := placeFood_none_iff_length
          (nextHeadOf head state.direction :: state.snake) gridSize random
          (List.nodup_cons.2 ⟨hmem, hnd⟩)
          (by
            intro s hs
            rcases List.mem_cons.1 hs with rfl | hs
            · exact hgrid
            · exact hin s hs)
        simp only [List.length_cons, Nat.cast_add, Nat.cast_one] at hfull
        cases hpf : placeFood (nextHeadOf head state.direction :: state.snake) gridSize random with
        | none =>
          have := hfull.1 hpf
          simp [hgrid, heat, hmem, this]
        | some c =>
          have hne : ¬ ((state.snake.length : Int) + 1 = gridSize * gridSize) := by
            intro h
            rw [hfull.2 h] at hpf
            simp at hpf
          simp [hne]
    · rw [if_neg heat]
      by_cases hmem : nextHeadOf head state.direction ∈ state.snake.dropLast
      · rw [if_pos hmem]
        simp [lostResult, heat]
      · rw [if_neg hmem]
        simp [heat]
  · rw [if_pos hgrid]
    simp [lostResult, hgrid]

theorem moveSnake_won_iff_witness :
    ∃ r, moveSnake
        { snake := [{ x := 0, y := 0 }, { x := 1, y := 0 }, { x := 1, y := 1 }],
          direction := .DOWN, food := some { x := 0, y := 1 }, score := 0,
          running := true, gameOver := false, result := .playing, speedId := .normal }
        2 (fun _ => 0) = some r ∧
      (r.result = .won ↔
        (InGrid 2 (nextHeadOf { x := 0, y := 0 } .DOWN) ∧
          some ({ x := 0, y := 1 } : Position) = some (nextHeadOf { x := 0, y := 0 } .DOWN) ∧
          nextHeadOf { x := 0, y := 0 } .DOWN ∉
            [({ x := 0, y := 0 } : Position), { x := 1, y := 0 }, { x := 1, y := 1 }] ∧
          (([({ x := 0, y := 0 } : Position), { x := 1, y := 0 },
            { x := 1, y := 1 }].length : Int) + 1 = 2 * 2))) ∧
      (r.result = .won → r.gameOver = true ∧ r.didEat = some true ∧ r.food = none) :=
  moveSnake_won_iff
    { snake := [{ x := 0, y := 0 }, { x := 1, y := 0 }, { x := 1, y := 1 }],
      direction := .DOWN, food := some { x := 0, y := 1 }, score := 0,
      running := true, gameOver := false, result := .playing, speedId := .normal }
    2 (fun _ => 0) { x := 0, y := 0 } rfl (by decide) (by decide)

/-! Lemmas on the reducer. -/

theorem moveSnake_some_head (state : GameState) (gridSize : Int) (random : RandomSource)
    (r : MoveResult) (h : moveSnake state gridSize random = some r) :
    ∃ head, state.snake.head? = some head := by
  cases hh : state.snake.head? with
  | none =>
    unfold moveSnake at h
    simp [hh] at h
  | some head => exact ⟨head, rfl⟩

/-- The shape of a `moveSnake` result: terminal with WON or LOST, or
non-terminal with PLAYING. -/
theorem moveSnake_result_shape (state : GameState) (gridSize : Int)
    (random : RandomSource) (r : MoveResult)
    (h : moveSnake state gridSize random = some r) :
    (r.gameOver = true ∧ (r.result = .won ∨ r.result = .lost)) ∨
      (r.gameOver = false ∧ r.result = .playing) := by
  obtain ⟨head, hhead⟩ := moveSnake_some_head state gridSize random r h
  rw [moveSnake_cases state gridSize random head hhead, Option.some.injEq] at h
  subst h
  by_cases h1 : InGrid gridSize (nextHeadOf head state.direction)
  · rw [if_neg (not_not.2 h1)]
    by_cases h2 : state.food = some (nextHeadOf head state.direction)
    · rw [if_pos h2]
      by_cases h3 : nextHeadOf head state.direction ∈ state.snake
      · rw [if_pos h3]
        exact Or.inl ⟨rfl, Or.inr rfl⟩
      · rw [if_neg h3]
        cases placeFood (nextHeadOf head state.direction :: state.snake) gridSize random with
        | none => exact Or.inl ⟨rfl, Or.inl rfl⟩
        | some f => exact Or.inr ⟨rfl, rfl⟩
    · rw [if_neg h2]
      by_cases h3 : nextHeadOf head state.direction ∈ state.snake.dropLast
      · rw [if_pos h3]
        exact Or.inl ⟨rfl, Or.inr rfl⟩
      · rw [if_neg h3]
        exact Or.inr ⟨rfl, rfl⟩
  · rw [if_pos h1]
    exact Or.inl ⟨rfl, Or.inr rfl⟩

theorem reducer_tick_idle (state : GameState) (random : RandomSource)
    (h : state.gameOver = true ∨ state.running = false) :
    reducer state .TICK random = some state := by
  unfold reducer
  rcases h with h | h <;> simp [h]

theorem reducer_tick_active (state : GameState) (random : RandomSource)
    (hrun : state.running = true) (hover : state.gameOver = false) :
    reducer state .TICK random =
      match moveSnake state GRID_SIZE random with
      | none => none
      | some result =>
        if result.gameOver then
          some { state with
            snake := result.snake, food := result.food, didEat := some result.didEat,
            result := result.result, running := false, gameOver := true }
        else
          some { state with
            snake := result.snake, food := result.food, didEat := some result.didEat,
            gameOver := result.gameOver, result := result.result,
            score := state.score + (if truthy result.didEat then 1 else 0) } := by
  unfold reducer
  simp [hrun, hover]

theorem reducer_change_direction (state : GameState) (d : Direction)
    (random : RandomSource) :
    reducer state (.CHANGE_DIRECTION d) random =
      if isOppositeDirection state.direction d then some state
      else some { state with direction := d } := rfl

theorem reducer_toggle_pause (state : GameState) (random : RandomSource) :
    reducer state .TOGGLE_PAUSE random =
      if state.gameOver then some state
      else some { state with running := !state.running } := rfl

theorem reducer_restart (state : GameState) (random : RandomSource) :
    reducer state .RESTART random = some (createInitialState GRID_SIZE random) := rfl

theorem reducer_set_speed (state : GameState) (id : SpeedId) (random : RandomSource) :
    reducer state (.SET_SPEED id) random = some { state with speedId := id } := rfl

theorem reducer_other (state : GameState) (random : RandomSource) :
    reducer state .OTHER random = some state := rfl

theorem createInitialState_terminalInv (gridSize : Int) (random : RandomSource) :
    TerminalInv (createInitialState gridSize random) := by
  simp [TerminalInv, createInitialState]

theorem reducer_terminalInv (state next : GameState) (action : Action)
    (random : RandomSource) (hinv : TerminalInv state)
    (hstep : reducer state action random = some next) : TerminalInv next := by
  cases action with
  | TICK =>
    by_cases hidle : state.gameOver = true ∨ state.running = false
    · rw [reducer_tick_idle state random hidle, Option.some.injEq] at hstep
      exact hstep ▸ hinv
    · have hrun : state.running = true := by
        cases h : state.running <;> simp_all
      have hover : state.gameOver = false := by
        cases h : state.gameOver <;> simp_all
      rw [reducer_tick_active state random hrun hover] at hstep
      cases hm : moveSnake state GRID_SIZE random with
      | none => simp [hm] at hstep
      | some r =>
        simp only [hm] at hstep
        rcases moveSnake_result_shape state GRID_SIZE random r hm with ⟨hg, hres⟩ | ⟨hg, hres⟩
        · simp only [hg, if_true, Option.some.injEq] at hstep
          subst hstep
          rcases hres with hres | hres <;> simp [TerminalInv, hres]
        · simp only [hg, Bool.false_eq_true, if_false, Option.some.injEq] at hstep
          subst hstep
          simp [TerminalInv, hres]
  | CHANGE_DIRECTION d =>
    rw [reducer_change_direction] at hstep
    split_ifs at hstep <;> simp only [Option.some.injEq] at hstep <;> subst hstep <;>
      exact hinv
  | TOGGLE_PAUSE =>
    rw [reducer_toggle_pause] at hstep
    split_ifs at hstep with hover <;> simp only [Option.some.injEq] at hstep <;> subst hstep
    · exact hinv
    · obtain ⟨-, h2, h3⟩ := hinv
      exact ⟨fun h => absurd h hover, h2, h3⟩
  | RESTART =>
    rw [reducer_restart, Option.some.injEq] at hstep
    subst hstep
    exact createInitialState_terminalInv _ _
  | SET_SPEED id =>
    rw [reducer_set_speed, Option.some.injEq] at hstep
    subst hstep
    exact hinv
  | OTHER =>
    rw [reducer_other, Option.some.injEq] at hstep
    subst hstep
    exact hinv

theorem reachable_terminalInv (s : GameState) (h : Reachable s) : TerminalInv s := by
  induction h with
  | init random hr => exact createInitialState_terminalInv _ _
  | step state next action random hr hs hstep ih =>
    exact reducer_terminalInv state next action random ih hstep

/-! The two phases of `placeFood`. -/

theorem randomPhase_least (occupied : List (Int × Int)) (gridSize : Int)
    (random : RandomSource) (attempts used m : Nat) (hm : m < attempts)
    (hfree : cellKey (floorScaled (random (used + 2 * m)) gridSize)
      (floorScaled (random (used + 2 * m + 1)) gridSize) ∉ occupied)
    (hocc : ∀ i, i < m → cellKey (floorScaled (random (used + 2 * i)) gridSize)
      (floorScaled (random (used + 2 * i + 1)) gridSize) ∈ occupied) :
    randomPhase occupied gridSize random attempts used =
      (some { x := floorScaled (random (used + 2 * m)) gridSize,
              y := floorScaled (random (used + 2 * m + 1)) gridSize }, used + 2 * m + 2) := by
  induction attempts generalizing used m with
  | zero => omega
  | succ n ih =>
    cases m with
    | zero =>
      simp only [Nat.mul_zero, Nat.add_zero] at hfree ⊢
      simp only [randomPhase]
      rw [if_pos hfree]
    | succ m =>
      have h0 := hocc 0 (Nat.succ_pos m)
      simp only [Nat.mul_zero, Nat.add_zero] at h0
      simp only [randomPhase]
      rw [if_neg (not_not.2 h0)]
      have hidx : used + 2 * (m + 1) = used + 2 + 2 * m := by ring
      rw [hidx] at hfree ⊢
      refine ih (used + 2) m (by omega) hfree ?_
      intro i hi
      have := hocc (i + 1) (by omega)
      have hidx2 : used + 2 * (i + 1) = used + 2 + 2 * i := by ring
      rwa [hidx2] at this

theorem randomPhase_none_of_occupied (occupied : List (Int × Int)) (gridSize : Int)
    (random : RandomSource) (attempts used : Nat)
    (hocc : ∀ i, i < attempts → cellKey (floorScaled (random (used + 2 * i)) gridSize)
      (floorScaled (random (used + 2 * i + 1)) gridSize) ∈ occupied) :
    randomPhase occupied gridSize random attempts used = (none, used + 2 * attempts) := by
  induction attempts generalizing used with
  | zero => simp [randomPhase]
  | succ n ih =>
    have h0 := hocc 0 (Nat.succ_pos n)
    simp only [Nat.mul_zero, Nat.add_zero] at h0
    simp only [randomPhase]
    rw [if_neg (not_not.2 h0), ih (used + 2)]
    · congr 1
      ring
    · intro i hi
      have := hocc (i + 1) (by omega)
      have hidx2 : used + 2 * (i + 1) = used + 2 + 2 * i := by ring
      rwa [hidx2] at this

theorem range_findSome_first {β : Type} (f : Nat → Option β) (n i : Nat) (b : β)
    (hi : i < n) (hf : f i = some b) (hnone : ∀ j, j < i → f j = none) :
    (List.range n).findSome? f = some b := by
  induction n with
  | zero => omega
  | succ n ih =>
    rw [List.range_succ, List.findSome?_append]
    rcases Nat.lt_succ_iff_lt_or_eq.1 hi with hlt | heq
    · rw [ih hlt]
      rfl
    · subst heq
      have hpre : (List.range i).findSome? f = none := by
        rw [List.findSome?_eq_none_iff]
        intro j hj
        exact hnone j (List.mem_range.1 hj)
      rw [hpre]
      simp [hf]

/-- The scan returns the first free cell in row-major order. -/
theorem scanPhase_first_free (snake : List Position) (gridSize : Int) (c : Position)
    (hc : InGrid gridSize c) (hfree : c ∉ snake)
    (hfirst : ∀ d, InGrid gridSize d → RowMajorBefore d c → d ∈ snake) :
    scanPhase (occupiedKeys snake) gridSize = some c := by
  obtain ⟨hx0, hx1, hy0, hy1⟩ := hc
  unfold scanPhase
  apply range_findSome_first _ _ c.y.toNat c (by omega)
  · apply range_findSome_first _ _ c.x.toNat c (by omega)
    · rw [Int.toNat_of_nonneg hx0, Int.toNat_of_nonneg hy0, if_pos]
      rw [mem_occupiedKeys]
      exact hfree
    · intro j hj
      rw [if_neg]
      rw [not_not, Int.toNat_of_nonneg hy0, mem_occupiedKeys]
      refine hfirst _ ⟨?_, ?_, ?_, ?_⟩ (Or.inr ⟨rfl, ?_⟩) <;> simp only <;> omega
  · intro j hj
    rw [List.findSome?_eq_none_iff]
    intro x hx
    rw [List.mem_range] at hx
    rw [if_neg]
    rw [not_not, mem_occupiedKeys]
    refine hfirst _ ⟨?_, ?_, ?_, ?_⟩ (Or.inl ?_) <;> simp only <;> omega

theorem placeFoodCounting_of_length_lt (snake : List Position) (gridSize : Int)
    (random : RandomSource) (hlen : (snake.length : Int) < gridSize * gridSize) :
    placeFoodCounting snake gridSize random =
      match randomPhase (occupiedKeys snake) gridSize random
          (gridSize * gridSize * 2).toNat 0 with
      | (some cell, used) => (some cell, used)
      | (none, used) => (scanPhase (occupiedKeys snake) gridSize, used) := by
  unfold placeFoodCounting
  simp only
  rw [if_neg (by omega)]

/-- The random phase accepts the first draw that is not on the snake. -/
theorem placeFoodCounting_first_free_draw (snake : List Position) (gridSize : Int)
    (random : RandomSource) (hlen : (snake.length : Int) < gridSize * gridSize) (m : Nat)
    (hm : m < (gridSize * gridSize * 2).toNat)
    (hfree : drawAt gridSize random m ∉ snake)
    (hocc : ∀ i, i < m → drawAt gridSize random i ∈ snake) :
    placeFoodCounting snake gridSize random = (some (drawAt gridSize random m), 2 * m + 2) := by
  rw [placeFoodCounting_of_length_lt snake gridSize random hlen]
  have h := randomPhase_least (occupiedKeys snake) gridSize random
    (gridSize * gridSize * 2).toNat 0 m hm
    (by rw [mem_occupiedKeys]; simpa [drawAt] using hfree)
    (by
      intro i hi
      rw [mem_occupiedKeys]
      simpa [drawAt] using hocc i hi)
  rw [h]
  simp [drawAt]

/-! Claims on the two phases of `placeFood`. -/

/-- C16: fallback of `placeFood`. For a snake with `snake.length < gridSize^2`
and a random source whose first `2 * gridSize^2` draws `(x, y)` all land on
cells occupied by the snake, `placeFood` returns the first unoccupied cell in
row-major order (smallest `y`, then smallest `x` among the cells with that
`y`), when such a cell exists. -/
theorem placeFood_fallback_first_free (snake : List Position) (gridSize : Int)
    (random : RandomSource) (hlen : (snake.length : Int) < gridSize * gridSize)
    (hall : ∀ j : Nat, (j : Int) < 2 * (gridSize * gridSize) →
      drawAt gridSize random j ∈ snake)
    (c : Position) (hc : InGrid gridSize c) (hfree : c ∉ snake)
    (hfirst : ∀ d, InGrid gridSize d → d ∉ snake →
      c.y < d.y ∨ (c.y = d.y ∧ c.x ≤ d.x)) :
    placeFood snake gridSize random = some c := by
  unfold placeFood
  rw [placeFoodCounting_of_length_lt snake gridSize random hlen,
    randomPhase_none_of_occupied]
  · simp only
    apply scanPhase_first_free snake gridSize c hc hfree
    intro d hd hbefore
    by_contra hmem
    have := hfirst d hd hmem
    unfold RowMajorBefore at hbefore
    omega
  · intro j hj
    rw [mem_occupiedKeys]
    have := hall j (by omega)
    simpa [drawAt] using this

theorem placeFood_fallback_first_free_witness :
    placeFood [{ x := 3, y := 3 }] 20 (fun _ => double015) = some { x := 0, y := 0 } :=
  placeFood_fallback_first_free [{ x := 3, y := 3 }] 20 (fun _ => double015) (by decide)
    (fun j _ => by simp [drawAt, floorScaled_double015]) { x := 0, y := 0 } (by decide)
    (by decide)
    (fun d hd _ => by
      unfold InGrid at hd
      simp only
      omega)

/-- C17: random phase of `placeFood`. For a snake with
`snake.length < gridSize^2` and a random source with values in `[0,1)`, if
`k <= 2 * gridSize^2` is the least index (counting from 1) whose draw
`(floor(r_(2k-1) * gridSize), floor(r_(2k) * gridSize))` is not occupied by the
snake, then `placeFood` returns exactly that draw and makes exactly `2k` calls
of the random source. -/
theorem placeFood_random_phase (snake : List Position) (gridSize : Int)
    (random : RandomSource) (hlen : (snake.length : Int) < gridSize * gridSize)
    (hr : UnitRange random) (k : Nat) (hk1 : 1 ≤ k)
    (hk : (k : Int) ≤ 2 * (gridSize * gridSize))
    (hfree : drawAt gridSize random (k - 1) ∉ snake)
    (hleast : ∀ j, 1 ≤ j → j < k → drawAt gridSize random (j - 1) ∈ snake) :
    placeFood snake gridSize random = some (drawAt gridSize random (k - 1)) ∧
      placeFoodCounting snake gridSize random =
        (some (drawAt gridSize random (k - 1)), 2 * k) := by
  have _ := hr
  have h := placeFoodCounting_first_free_draw snake gridSize random hlen (k - 1)
    (by omega) hfree (fun i hi => by
      have := hleast (i + 1) (by omega) (by omega)
      simpa using this)
  have h2 : 2 * (k - 1) + 2 = 2 * k := by omega
  rw [h2] at h
  refine ⟨?_, h⟩
  unfold placeFood
  rw [h]

theorem placeFood_random_phase_witness :
    drawAt 20 (fun i => if i < 2 then double015 else 0) (1 - 1) = { x := 3, y := 3 } ∧
    drawAt 20 (fun i => if i < 2 then double015 else 0) (2 - 1) = { x := 0, y := 0 } ∧
    placeFood [{ x := 3, y := 3 }] 20 (fun i => if i < 2 then double015 else 0) =
        some (drawAt 20 (fun i => if i < 2 then double015 else 0) (2 - 1)) ∧
      placeFoodCounting [{ x := 3, y := 3 }] 20 (fun i => if i < 2 then double015 else 0) =
        (some (drawAt 20 (fun i => if i < 2 then double015 else 0) (2 - 1)), 2 * 2) :=
  And.intro (by simp [drawAt, floorScaled_double015]) <|
  And.intro (by simp [drawAt, floorScaled_zero]) <|
  placeFood_random_phase [{ x := 3, y := 3 }] 20 (fun i => if i < 2 then double015 else 0)
    (by decide)
    (fun i => by
      beta_reduce
      split_ifs
      · exact unitRange_double015 0
      · exact unitRange_zero 0)
    2 (by decide) (by decide)
    (by simp [drawAt, floorScaled_zero])
    (fun j h1 h2 => by
      have hj : j = 1 := by omega
      subst hj
      simp [drawAt, floorScaled_double015])

/-! Invariants of `moveSnake`. -/

/-- The three outcomes of `moveSnake` on a non-empty snake: a collision (state
kept), an eating move (snake grown by `nextHead`), a plain move (snake
shifted). -/
theorem moveSnake_outcome (state : GameState) (gridSize : Int) (random : RandomSource)
    (head : Position) (hhead : state.snake.head? = some head) :
    ∃ r, moveSnake state gridSize random = some r ∧
      ((r.snake = state.snake ∧ r.food = state.food ∧ r.didEat = some false ∧
          r.gameOver = true ∧ r.result = .lost) ∨
        (InGrid gridSize (nextHeadOf head state.direction) ∧
          state.food = some (nextHeadOf head state.direction) ∧
          nextHeadOf head state.direction ∉ state.snake ∧
          r.snake = nextHeadOf head state.direction :: state.snake ∧
          r.food = placeFood (nextHeadOf head state.direction :: state.snake) gridSize random ∧
          r.didEat = some true ∧ (r.gameOver = true ↔ r.result = .won) ∧
          (r.gameOver = false ↔ r.result = .playing)) ∨
        (InGrid gridSize (nextHeadOf head state.direction) ∧
          state.food ≠ some (nextHeadOf head state.direction) ∧
          nextHeadOf head state.direction ∉ state.snake.dropLast ∧
          r.snake = (nextHeadOf head state.direction :: state.snake).dropLast ∧
          r.food = state.food ∧ truthy r.didEat = false ∧ r.gameOver = false ∧
          r.result = .playing)) := by
  rw [moveSnake_cases state gridSize random head hhead]
  refine ⟨_, rfl, ?_⟩
  by_cases h1 : InGrid gridSize (nextHeadOf head state.direction)
  · rw [if_neg (not_not.2 h1)]
    by_cases h2 : state.food = some (nextHeadOf head state.direction)
    · rw [if_pos h2]
      by_cases h3 : nextHeadOf head state.direction ∈ state.snake
      · rw [if_pos h3]
        exact Or.inl ⟨rfl, rfl, rfl, rfl, rfl⟩
      · rw [if_neg h3]
        refine Or.inr (Or.inl ⟨h1, h2, h3, ?_⟩)
        cases placeFood (nextHeadOf head state.direction :: state.snake) gridSize random with
        | none => simp
        | some f => simp
    · rw [if_neg h2]
      by_cases h3 : nextHeadOf head state.direction ∈ state.snake.dropLast
      · rw [if_pos h3]
        exact Or.inl ⟨rfl, rfl, rfl, rfl, rfl⟩
      · rw [if_neg h3]
        exact Or.inr (Or.inr ⟨h1, h2, h3, rfl, rfl, by cases state.food <;> rfl, rfl, rfl⟩)
  · rw [if_pos h1]
    exact Or.inl ⟨rfl, rfl, rfl, rfl, rfl⟩

theorem head?_of_ne_nil (snake : List Position) (hne : snake ≠ []) :
    ∃ head, snake.head? = some head := by
  cases snake with
  | nil => exact absurd rfl hne
  | cons a t => exact ⟨a, rfl⟩

theorem adjacent_nextHeadOf (head : Position) (d : Direction) :
    Adjacent (nextHeadOf head d) head := by
  cases d <;> simp [Adjacent, nextHeadOf, DIRECTIONS]

theorem contiguous_cons_nextHead (snake : List Position) (head : Position)
    (d : Direction) (hhead : snake.head? = some head) (hc : Contiguous snake) :
    Contiguous (nextHeadOf head d :: snake) := by
  unfold Contiguous at hc ⊢
  refine List.Chain'.cons' hc ?_
  intro y hy
  rw [hhead] at hy
  simp only [Option.mem_def, Option.some.injEq] at hy
  subst hy
  exact adjacent_nextHeadOf _ d

/-! Claims on the invariants of `moveSnake`. -/

/-- C13: snake invariant preserved by the step. For a state whose snake is
non-empty, has pairwise-distinct segments and lies inside the grid, the snake
returned by `moveSnake` (any direction, food and random source) is again
non-empty, with pairwise-distinct segments, inside the grid. -/
theorem moveSnake_preserves_snake_invariant (state : GameState) (gridSize : Int)
    (random : RandomSource) (hne : state.snake ≠ []) (hnd : state.snake.Nodup)
    (hin : ∀ s ∈ state.snake, InGrid gridSize s) :
    ∃ r, moveSnake state gridSize random = some r ∧ r.snake ≠ [] ∧ r.snake.Nodup ∧
      ∀ s ∈ r.snake, InGrid gridSize s := by
  obtain ⟨head, hhead⟩ := head?_of_ne_nil state.snake hne
  obtain ⟨r, hr, hcase⟩ := moveSnake_outcome state gridSize random head hhead
  refine ⟨r, hr, ?_⟩
  rcases hcase with ⟨hs, -⟩ | ⟨hg, -, hfree, hs, -⟩ | ⟨hg, -, hfree, hs, -⟩
  · rw [hs]
    exact ⟨hne, hnd, hin⟩
  · rw [hs]
    refine ⟨List.cons_ne_nil _ _, List.nodup_cons.2 ⟨hfree, hnd⟩, ?_⟩
    intro s hmem
    rcases List.mem_cons.1 hmem with rfl | hmem
    · exact hg
    · exact hin s hmem
  · rw [hs, List.dropLast_cons_of_ne_nil hne]
    refine ⟨List.cons_ne_nil _ _,
      List.nodup_cons.2 ⟨hfree, hnd.sublist (List.dropLast_sublist _)⟩, ?_⟩
    intro s hmem
    rcases List.mem_cons.1 hmem with rfl | hmem
    · exact hg
    · exact hin s (List.mem_of_mem_dropLast hmem)

theorem moveSnake_preserves_snake_invariant_witness :
    ∃ r, moveSnake
        { snake := [{ x := 5, y := 5 }, { x := 4, y := 5 }, { x := 3, y := 5 }],
          direction := .RIGHT, food := some { x := 6, y := 5 }, score := 0,
          running := true, gameOver := false, result := .playing, speedId := .normal }
        20 (fun _ => 0) = some r ∧ r.snake ≠ [] ∧ r.snake.Nodup ∧
      ∀ s ∈ r.snake, InGrid 20 s :=
  moveSnake_preserves_snake_invariant
    { snake := [{ x := 5, y := 5 }, { x := 4, y := 5 }, { x := 3, y := 5 }],
      direction := .RIGHT, food := some { x := 6, y := 5 }, score := 0,
      running := true, gameOver := false, result := .playing, speedId := .normal }
    20 (fun _ => 0) (by decide) (by decide) (by decide)

/-- C14: food invariant preserved by the step. For a state whose food is absent
or is not a segment of its snake, `moveSnake` returns a result whenever the
snake is non-empty, and the (snake, food) pair it returns again has the food
absent or not a segment of the returned snake. -/
theorem moveSnake_preserves_food_invariant (state : GameState) (gridSize : Int)
    (random : RandomSource) (hfood : ∀ f, state.food = some f → f ∉ state.snake) :
    (state.snake ≠ [] → ∃ r, moveSnake state gridSize random = some r) ∧
      ∀ r, moveSnake state gridSize random = some r →
        ∀ f, r.food = some f → f ∉ r.snake := by
  constructor
  · intro hne
    obtain ⟨head, hhead⟩ := head?_of_ne_nil state.snake hne
    obtain ⟨r, hr, -⟩ := moveSnake_outcome state gridSize random head hhead
    exact ⟨r, hr⟩
  · intro r hr f hf
    obtain ⟨head, hhead⟩ := moveSnake_some_head state gridSize random r hr
    obtain ⟨r', hr', hcase⟩ := moveSnake_outcome state gridSize random head hhead
    rw [hr, Option.some.injEq] at hr'
    subst hr'
    rcases hcase with ⟨hs, hfd, -⟩ | ⟨-, -, -, hs, hfd, -⟩ | ⟨-, hne, -, hs, hfd, -⟩
    · rw [hs]
      exact hfood f (hfd ▸ hf)
    · rw [hs]
      rw [hfd] at hf
      exact placeFood_not_mem _ _ _ _ hf
    · have hsnake : state.snake ≠ [] := by
        intro h
        rw [h] at hhead
        simp at hhead
      rw [hs, List.dropLast_cons_of_ne_nil hsnake]
      rw [hfd] at hf
      intro hmem
      rcases List.mem_cons.1 hmem with heq | hmem
      · exact hne (heq ▸ hf)
      · exact hfood f hf (List.mem_of_mem_dropLast hmem)

theorem moveSnake_preserves_food_invariant_witness :
    ([({ x := 5, y := 5 } : Position), { x := 4, y := 5 }, { x := 3, y := 5 }] ≠ [] →
      ∃ r, moveSnake
        { snake := [{ x := 5, y := 5 }, { x := 4, y := 5 }, { x := 3, y := 5 }],
          direction := .RIGHT, food := some { x := 6, y := 5 }, score := 0,
          running := true, gameOver := false, result := .playing, speedId := .normal }
        20 (fun _ => 0) = some r) ∧
      ∀ r, moveSnake
        { snake := [{ x := 5, y := 5 }, { x := 4, y := 5 }, { x := 3, y := 5 }],
          direction := .RIGHT, food := some { x := 6, y := 5 }, score := 0,
          running := true, gameOver := false, result := .playing, speedId := .normal }
        20 (fun _ => 0) = some r → ∀ f, r.food = some f → f ∉ r.snake :=
  moveSnake_preserves_food_invariant
    { snake := [{ x := 5, y := 5 }, { x := 4, y := 5 }, { x := 3, y := 5 }],
      direction := .RIGHT, food := some { x := 6, y := 5 }, score := 0,
      running := true, gameOver := false, result := .playing, speedId := .normal }
    20 (fun _ => 0) (by decide)

/-- C20: contiguity preserved. For a state whose snake is non-empty with every
two consecutive segments grid-adjacent, the snake returned by `moveSnake` also
has every two consecutive segments grid-adjacent; and the snake produced by
`createInitialState` has this property. -/
theorem moveSnake_preserves_contiguity (state : GameState) (gridSize : Int)
    (random : RandomSource) (hne : state.snake ≠ []) (hc : Contiguous state.snake) :
    (∃ r, moveSnake state gridSize random = some r ∧ Contiguous r.snake) ∧
      ∀ (size : Int) (source : RandomSource),
        Contiguous (createInitialState size source).snake := by
  constructor
  · obtain ⟨head, hhead⟩ := head?_of_ne_nil state.snake hne
    obtain ⟨r, hr, hcase⟩ := moveSnake_outcome state gridSize random head hhead
    refine ⟨r, hr, ?_⟩
    have hgrown := contiguous_cons_nextHead state.snake head state.direction hhead hc
    rcases hcase with ⟨hs, -⟩ | ⟨-, -, -, hs, -⟩ | ⟨-, -, -, hs, -⟩
    · rw [hs]
      exact hc
    · rw [hs]
      exact hgrown
    · rw [hs]
      exact List.Chain'.init hgrown
  · intro size source
    simp [Contiguous, createInitialState, Adjacent]

theorem moveSnake_preserves_contiguity_witness :
    (∃ r, moveSnake
        { snake := [{ x := 5, y := 5 }, { x := 5, y := 4 }, { x := 4, y := 4 }],
          direction := .DOWN, food := some { x := 9, y := 9 }, score := 0,
          running := true, gameOver := false, result := .playing, speedId := .normal }
        20 (fun _ => 0) = some r ∧ Contiguous r.snake) ∧
      ∀ (size : Int) (source : RandomSource),
        Contiguous (createInitialState size source).snake :=
  moveSnake_preserves_contiguity
    { snake := [{ x := 5, y := 5 }, { x := 5, y := 4 }, { x := 4, y := 4 }],
      direction := .DOWN, food := some { x := 9, y := 9 }, score := 0,
      running := true, gameOver := false, result := .playing, speedId := .normal }
    20 (fun _ => 0) (by decide) (by simp [Contiguous, Adjacent])

/-- The state returned by an active TICK, field by field. -/
theorem reducer_tick_next (state : GameState) (random : RandomSource)
    (hrun : state.running = true) (hover : state.gameOver = false) (r : MoveResult)
    (hm : moveSnake state GRID_SIZE random = some r) :
    ∃ next, reducer state .TICK random = some next ∧
      next.snake = r.snake ∧ next.food = r.food ∧ next.result = r.result ∧
      next.gameOver = r.gameOver ∧ next.direction = state.direction ∧
      next.score =
        (if r.gameOver then state.score
         else state.score + (if truthy r.didEat then 1 else 0)) := by
  rw [reducer_tick_active state random hrun hover]
  simp only [hm]
  cases hg : r.gameOver with
  | true => exact ⟨_, rfl, rfl, rfl, rfl, rfl, rfl, rfl⟩
  | false =>
    refine ⟨_, rfl, rfl, rfl, rfl, ?_, rfl, rfl⟩
    simp [hg]

theorem createInitialState_scoreInv (gridSize : Int) (random : RandomSource) :
    ScoreInv (createInitialState gridSize random) := by
  intro _
  rfl

theorem reducer_scoreInv (state next : GameState) (action : Action)
    (random : RandomSource) (ht : TerminalInv state) (hs : ScoreInv state)
    (hstep : reducer state action random = some next) : ScoreInv next := by
  cases action with
  | TICK =>
    by_cases hidle : state.gameOver = true ∨ state.running = false
    · rw [reducer_tick_idle state random hidle, Option.some.injEq] at hstep
      exact hstep ▸ hs
    · have hrun : state.running = true := by
        cases h : state.running <;> simp_all
      have hover : state.gameOver = false := by
        cases h : state.gameOver <;> simp_all
      have hlen : state.score + 3 = state.snake.length := by
        apply hs
        rw [ht.2.2.2 hover]
        decide
      cases hm : moveSnake state GRID_SIZE random with
      | none =>
        rw [reducer_tick_active state random hrun hover] at hstep
        simp [hm] at hstep
      | some r =>
        obtain ⟨n, hn, hsnake, -, hres, -, -, hscore⟩ :=
          reducer_tick_next state random hrun hover r hm
        rw [hn, Option.some.injEq] at hstep
        subst hstep
        obtain ⟨head, hhead⟩ := moveSnake_some_head state GRID_SIZE random r hm
        obtain ⟨r', hr', hcase⟩ := moveSnake_outcome state GRID_SIZE random head hhead
        rw [hm, Option.some.injEq] at hr'
        subst hr'
        intro hnw
        rw [hsnake, hscore]
        rcases hcase with ⟨hsn, -, -, hg, -⟩ | ⟨-, -, -, hsn, -, hde, hwon, -⟩ |
            ⟨-, -, -, hsn, -, hde, hg, -⟩
        · rw [hsn, hg, if_pos rfl]
          exact hlen
        · have hg : r.gameOver = false := by
            cases h : r.gameOver with
            | false => rfl
            | true => exact absurd (hres.trans (hwon.1 h)) hnw
          rw [hsn, hg, hde]
          simp only [truthy, Bool.false_eq_true, if_false, if_true, List.length_cons]
          omega
        · rw [hsn, hg, hde]
          simp only [Bool.false_eq_true, if_false, List.length_dropLast_cons]
          omega
  | CHANGE_DIRECTION d =>
    rw [reducer_change_direction] at hstep
    split_ifs at hstep <;> simp only [Option.some.injEq] at hstep <;> subst hstep <;>
      exact hs
  | TOGGLE_PAUSE =>
    rw [reducer_toggle_pause] at hstep
    split_ifs at hstep <;> simp only [Option.some.injEq] at hstep <;> subst hstep <;>
      exact hs
  | RESTART =>
    rw [reducer_restart, Option.some.injEq] at hstep
    subst hstep
    exact createInitialState_scoreInv _ _
  | SET_SPEED id =>
    rw [reducer_set_speed, Option.some.injEq] at hstep
    subst hstep
    exact hs
  | OTHER =>
    rw [reducer_other, Option.some.injEq] at hstep
    subst hstep
    exact hs

theorem reachable_scoreInv (s : GameState) (h : Reachable s) : ScoreInv s := by
  induction h with
  | init random hr => exact createInitialState_scoreInv _ _
  | step state next action random hr hs hstep ih =>
    exact reducer_scoreInv state next action random (reachable_terminalInv state hs) ih hstep

/-! The two concrete runs: the last food of a full board, and two turns
between ticks. -/

theorem serpentineCell_injective (i j : Nat)
    (h : serpentineCell i = serpentineCell j) : i = j := by
  unfold serpentineCell at h
  simp only [Position.mk.injEq] at h
  obtain ⟨hx, hy⟩ := h
  have hdiv : i / 20 = j / 20 := by exact_mod_cast hy
  rw [hdiv] at hx
  split_ifs at hx <;> omega

theorem almostFullSnake_length : almostFullSnake.length = 399 := by
  simp [almostFullSnake]

theorem almostFullSnake_nodup : almostFullSnake.Nodup := by
  unfold almostFullSnake
  rw [List.nodup_reverse]
  refine List.Nodup.map_on ?_ (List.nodup_range 399)
  intro i _ j _ h
  exact serpentineCell_injective i j h

theorem almostFullSnake_inGrid : ∀ s ∈ almostFullSnake, InGrid GRID_SIZE s := by
  intro s hs
  unfold almostFullSnake at hs
  rw [List.mem_reverse, List.mem_map] at hs
  obtain ⟨i, hi, rfl⟩ := hs
  rw [List.mem_range] at hi
  unfold InGrid serpentineCell GRID_SIZE
  simp only
  split_ifs <;> omega

theorem almostFullSnake_free : ({ x := 0, y := 19 } : Position) ∉ almostFullSnake := by
  intro hs
  unfold almostFullSnake at hs
  rw [List.mem_reverse, List.mem_map] at hs
  obtain ⟨i, hi, h⟩ := hs
  rw [List.mem_range] at hi
  unfold serpentineCell at h
  simp only [Position.mk.injEq] at h
  obtain ⟨hx, hy⟩ := h
  split_ifs at hx <;> omega

theorem almostFullSnake_head : almostFullSnake.head? = some { x := 1, y := 19 } := by
  decide

theorem almostFullSnake_contiguous : Contiguous almostFullSnake := by
  unfold Contiguous almostFullSnake
  rw [List.chain'_reverse, List.chain'_map, List.chain'_range_succ]
  intro m hm
  unfold flip Adjacent serpentineCell
  simp only [abs_eq (zero_le_one : (0 : Int) ≤ 1)]
  split_ifs <;> omega

theorem moveSnake_lastFoodState (random : RandomSource) :
    moveSnake lastFoodState GRID_SIZE random =
      some { snake := { x := 0, y := 19 } :: almostFullSnake, food := none,
             didEat := some true, gameOver := true, result := .won } := by
  have hsnake : lastFoodState.snake = almostFullSnake := by
    simp only [lastFoodState]
  have hhead : lastFoodState.snake.head? = some { x := 1, y := 19 } := by
    rw [hsnake]
    exact almostFullSnake_head
  have hnext : nextHeadOf { x := 1, y := 19 } lastFoodState.direction = { x := 0, y := 19 } := by
    decide
  have hfull : placeFood ({ x := 0, y := 19 } :: almostFullSnake) GRID_SIZE random = none := by
    rw [placeFood_eq_none_iff]
    left
    rw [List.length_cons, almostFullSnake_length]
    decide
  rw [moveSnake_cases lastFoodState GRID_SIZE random { x := 1, y := 19 } hhead, hnext,
    if_neg (by decide),
    if_pos (show lastFoodState.food = some { x := 0, y := 19 } by simp only [lastFoodState]),
    hsnake, if_neg almostFullSnake_free, hfull]

theorem doubleTurnState_snake :
    doubleTurnState.snake = [{ x := 11, y := 10 }, { x := 10, y := 10 }, { x := 9, y := 10 }] := by
  decide

theorem moveSnake_doubleTurnState (random : RandomSource) :
    moveSnake doubleTurnState GRID_SIZE random =
      some { snake := doubleTurnState.snake, food := doubleTurnState.food,
             didEat := some false, gameOver := true, result := .lost } := by
  have hhead : doubleTurnState.snake.head? = some { x := 11, y := 10 } := by
    rw [doubleTurnState_snake]
    rfl
  have hnext : nextHeadOf { x := 11, y := 10 } doubleTurnState.direction =
      { x := 10, y := 10 } := by
    decide
  have hfood : doubleTurnState.food ≠ some { x := 10, y := 10 } := by
    intro h
    have hpf : placeFood (createInitialState GRID_SIZE (fun _ => 0)).snake GRID_SIZE
        (fun _ => 0) = some { x := 10, y := 10 } := h
    have := placeFood_not_mem _ _ _ _ hpf
    exact this (by decide)
  have hmem : ({ x := 10, y := 10 } : Position) ∈ doubleTurnState.snake.dropLast := by
    rw [doubleTurnState_snake]
    decide
  rw [moveSnake_cases doubleTurnState GRID_SIZE random { x := 11, y := 10 } hhead, hnext,
    if_neg (by decide), if_neg hfood, if_pos hmem]
  rfl

theorem doubleTurnState_reachable : Reachable doubleTurnState := by
  have hr : UnitRange (fun _ => 0) := unitRange_zero
  have h0 := Reachable.init (fun _ => 0) hr
  have h1 : Reachable { createInitialState GRID_SIZE (fun _ => 0) with direction := .UP } :=
    Reachable.step _ _ (.CHANGE_DIRECTION .UP) (fun _ => 0) hr h0 rfl
  exact Reachable.step _ _ (.CHANGE_DIRECTION .LEFT) (fun _ => 0) hr h1 rfl

/-! Claims on the reducer. -/

/-- C11: every state reachable from `createInitialState(GRID_SIZE, random)`
through reducer actions satisfies `gameOver => running = false`, and
`gameOver = true <=> result is WON or LOST` (equivalently
`result = PLAYING <=> gameOver = false`). -/
theorem reachable_gameOver_invariant (s : GameState) (h : Reachable s) :
    (s.gameOver = true → s.running = false) ∧
      (s.gameOver = true ↔ (s.result = .won ∨ s.result = .lost)) ∧
      (s.result = .playing ↔ s.gameOver = false) :=
  reachable_terminalInv s h

theorem reachable_gameOver_invariant_witness :
    ((createInitialState GRID_SIZE (fun _ => 0)).gameOver = true →
        (createInitialState GRID_SIZE (fun _ => 0)).running = false) ∧
      ((createInitialState GRID_SIZE (fun _ => 0)).gameOver = true ↔
        ((createInitialState GRID_SIZE (fun _ => 0)).result = .won ∨
          (createInitialState GRID_SIZE (fun _ => 0)).result = .lost)) ∧
      ((createInitialState GRID_SIZE (fun _ => 0)).result = .playing ↔
        (createInitialState GRID_SIZE (fun _ => 0)).gameOver = false) :=
  reachable_gameOver_invariant (createInitialState GRID_SIZE (fun _ => 0))
    (Reachable.init (fun _ => 0) unitRange_zero)

/-- C18: terminal and paused states do not advance. For a state with
`gameOver = true` or `running = false` the TICK action returns the state
unchanged; for a state with `gameOver = true` TOGGLE_PAUSE also returns the
state unchanged, and every action other than RESTART leaves snake, food, score,
result and running of such a state as they are. -/
theorem reducer_terminal_or_paused (state : GameState) (random : RandomSource) :
    ((state.gameOver = true ∨ state.running = false) →
        reducer state .TICK random = some state) ∧
      (state.gameOver = true → reducer state .TOGGLE_PAUSE random = some state) ∧
      (state.gameOver = true → ∀ action, action ≠ .RESTART →
        ∃ next, reducer state action random = some next ∧
          next.snake = state.snake ∧ next.food = state.food ∧
          next.score = state.score ∧ next.result = state.result ∧
          next.running = state.running) := by
  refine ⟨reducer_tick_idle state random, ?_, ?_⟩
  · intro hover
    rw [reducer_toggle_pause, if_pos hover]
  · intro hover action hne
    cases action with
    | TICK => exact ⟨state, reducer_tick_idle state random (Or.inl hover), rfl, rfl, rfl, rfl, rfl⟩
    | CHANGE_DIRECTION d =>
      rw [reducer_change_direction]
      split_ifs
      · exact ⟨state, rfl, rfl, rfl, rfl, rfl, rfl⟩
      · exact ⟨_, rfl, rfl, rfl, rfl, rfl, rfl⟩
    | TOGGLE_PAUSE =>
      rw [reducer_toggle_pause, if_pos hover]
      exact ⟨state, rfl, rfl, rfl, rfl, rfl, rfl⟩
    | RESTART => exact absurd rfl hne
    | SET_SPEED id => exact ⟨_, reducer_set_speed state id random, rfl, rfl, rfl, rfl, rfl⟩
    | OTHER => exact ⟨state, rfl, rfl, rfl, rfl, rfl, rfl⟩

theorem reducer_terminal_or_paused_witness :
    reducer
        { snake := [{ x := 0, y := 5 }, { x := 1, y := 5 }, { x := 2, y := 5 }],
          direction := .LEFT, food := some { x := 7, y := 7 }, score := 0,
          running := false, gameOver := true, result := .lost, speedId := .normal,
          didEat := some (some false) } .TICK (fun _ => 0) =
      some { snake := [{ x := 0, y := 5 }, { x := 1, y := 5 }, { x := 2, y := 5 }],
             direction := .LEFT, food := some { x := 7, y := 7 }, score := 0,
             running := false, gameOver := true, result := .lost, speedId := .normal,
             didEat := some (some false) } ∧
    reducer
        { snake := [{ x := 0, y := 5 }, { x := 1, y := 5 }, { x := 2, y := 5 }],
          direction := .LEFT, food := some { x := 7, y := 7 }, score := 0,
          running := false, gameOver := true, result := .lost, speedId := .normal,
          didEat := some (some false) } .TOGGLE_PAUSE (fun _ => 0) =
      some { snake := [{ x := 0, y := 5 }, { x := 1, y := 5 }, { x := 2, y := 5 }],
             direction := .LEFT, food := some { x := 7, y := 7 }, score := 0,
             running := false, gameOver := true, result := .lost, speedId := .normal,
             didEat := some (some false) } :=
  ⟨(reducer_terminal_or_paused
      { snake := [{ x := 0, y := 5 }, { x := 1, y := 5 }, { x := 2, y := 5 }],
        direction := .LEFT, food := some { x := 7, y := 7 }, score := 0,
        running := false, gameOver := true, result := .lost, speedId := .normal,
        didEat := some (some false) } (fun _ => 0)).1 (Or.inl rfl),
   (reducer_terminal_or_paused
      { snake := [{ x := 0, y := 5 }, { x := 1, y := 5 }, { x := 2, y := 5 }],
        direction := .LEFT, food := some { x := 7, y := 7 }, score := 0,
        running := false, gameOver := true, result := .lost, speedId := .normal,
        didEat := some (some false) } (fun _ => 0)).2.1 rfl⟩

/-- C19: score tracks growth. In every state reachable from
`createInitialState(GRID_SIZE, random)` through reducer actions whose result is
not WON, `score = snake.length - 3`. -/
theorem reachable_score_eq_growth (s : GameState) (h : Reachable s)
    (hres : s.result ≠ .won) : (s.score : Int) = (s.snake.length : Int) - 3 := by
  have := reachable_scoreInv s h hres
  omega

theorem reachable_score_eq_growth_witness :
    (((createInitialState GRID_SIZE (fun _ => 0)).score : Nat) : Int) =
      ((createInitialState GRID_SIZE (fun _ => 0)).snake.length : Int) - 3 :=
  reachable_score_eq_growth (createInitialState GRID_SIZE (fun _ => 0))
    (Reachable.init (fun _ => 0) unitRange_zero) (by simp [createInitialState])

/-- C12 fails on the winning tick. The state `lastFoodState` is running and
not over, its snake is a valid one (399 distinct contiguous in-grid segments,
score 396 = length - 3), and `moveSnake` reports `didEat = true` with result
WON; the state returned by the reducer for TICK still has score 396, not 397:
the branch for a finished game returns before the score is updated. -/
theorem reducer_tick_win_keeps_score :
    lastFoodState.running = true ∧ lastFoodState.gameOver = false ∧
      lastFoodState.score = 396 ∧
      lastFoodState.snake.Nodup ∧ (∀ s ∈ lastFoodState.snake, InGrid GRID_SIZE s) ∧
      Contiguous lastFoodState.snake ∧
      lastFoodState.score + 3 = lastFoodState.snake.length ∧
      (∃ r, moveSnake lastFoodState GRID_SIZE (fun _ => 0) = some r ∧
        r.didEat = some true ∧ r.result = .won) ∧
      ∃ next, reducer lastFoodState .TICK (fun _ => 0) = some next ∧
        next.score = 396 ∧ next.result = .won ∧ next.snake.length = 400 := by
  have hsnake : lastFoodState.snake = almostFullSnake := by
    simp only [lastFoodState]
  have hm := moveSnake_lastFoodState (fun _ => 0)
  refine ⟨rfl, rfl, rfl, ?_, ?_, ?_, ?_, ⟨_, hm, rfl, rfl⟩, ?_⟩
  · rw [hsnake]
    exact almostFullSnake_nodup
  · rw [hsnake]
    exact almostFullSnake_inGrid
  · rw [hsnake]
    exact almostFullSnake_contiguous
  · rw [hsnake, almostFullSnake_length]
    rfl
  · obtain ⟨next, hn, hs, -, hres, -, -, hscore⟩ :=
      reducer_tick_next lastFoodState (fun _ => 0) rfl rfl _ hm
    refine ⟨next, hn, ?_, hres, ?_⟩
    · rw [hscore]
      rfl
    · rw [hs, List.length_cons, almostFullSnake_length]

/-- C15 fails after two turns between ticks. From the initial state (direction
RIGHT, snake `[(11,10),(10,10),(9,10)]`) the reducer accepts CHANGE_DIRECTION UP
and then CHANGE_DIRECTION LEFT, each not the opposite of the stored direction;
the reachable state `doubleTurnState` has `head + vector(direction) = snake[1]`,
and its TICK ends the game with result LOST. -/
theorem reducer_double_turn_neck_collision :
    reducer (createInitialState GRID_SIZE (fun _ => 0)) (.CHANGE_DIRECTION .UP)
        (fun _ => 0) =
      some { createInitialState GRID_SIZE (fun _ => 0) with direction := .UP } ∧
    reducer { createInitialState GRID_SIZE (fun _ => 0) with direction := .UP }
        (.CHANGE_DIRECTION .LEFT) (fun _ => 0) = some doubleTurnState ∧
    Reachable doubleTurnState ∧
    doubleTurnState.running = true ∧ doubleTurnState.gameOver = false ∧
    doubleTurnState.snake.head? = some { x := 11, y := 10 } ∧
    doubleTurnState.snake[1]? =
      some (nextHeadOf { x := 11, y := 10 } doubleTurnState.direction) ∧
    ∃ next, reducer doubleTurnState .TICK (fun _ => 0) = some next ∧
      next.gameOver = true ∧ next.result = .lost ∧ next.running = false := by
  refine ⟨rfl, rfl, doubleTurnState_reachable, rfl, rfl, ?_, ?_, ?_⟩
  · rw [doubleTurnState_snake]
    rfl
  · rw [doubleTurnState_snake]
    decide
  · obtain ⟨next, hn, -, -, hres, hover, -, -⟩ :=
      reducer_tick_next doubleTurnState (fun _ => 0) rfl rfl _
        (moveSnake_doubleTurnState (fun _ => 0))
    refine ⟨next, hn, hover, hres, ?_⟩
    have hinv := reducer_terminalInv doubleTurnState next .TICK (fun _ => 0)
      (reachable_terminalInv _ doubleTurnState_reachable) hn
    exact hinv.1 hover

end Snake
